import Mathlib

/-!
# OTA update core of sensor-esp32 (`components/ota/ota.c`)

A shallow embedding of the manifest parser, the manifest fetcher, the
streaming downloader and the update loop of `ota.c`, followed by the
properties established about them.

Conventions of the embedding:

* a C `char` is a `Char`, the terminator is `NUL`;
* a `char*` that the code scans is the memory behind it, `Nat → Char`;
* a `char*` that the code stores in a record is `Option (List Char)`: `none`
  is `NULL`, `some s` points at the C string whose characters before the
  terminating NUL are `s`;
* `esp_err_t` is `Int`;
* calls into the SDK (transport, flash, Wi-Fi) take their results from an
  explicit environment and are recorded in a list of events.
-/

namespace Ota

/-! ## Error codes -/

/-- The ESP-IDF error type (`int32_t`). -/
abbrev esp_err_t := Int

/-- ESP-IDF: `#define ESP_OK 0`. -/
def ESP_OK : esp_err_t := 0

/-- ESP-IDF: `#define ESP_FAIL -1`. -/
def ESP_FAIL : esp_err_t := -1

/-- Modelled from the spec: the `OAP_OTA_ERR_*` macros are declared in a header
that is not among the sources. The error taxonomy of the spec lists them as
distinct failure codes, so they are given pairwise distinct non-zero values;
only their distinctness is ever used. -/
def OAP_OTA_ERR_REQUEST_FAILED : esp_err_t := 0x1001

/-- Modelled from the spec: see `OAP_OTA_ERR_REQUEST_FAILED`. -/
def OAP_OTA_ERR_NO_UPDATES : esp_err_t := 0x1002

/-- Modelled from the spec: see `OAP_OTA_ERR_REQUEST_FAILED`. -/
def OAP_OTA_ERR_EMPTY_RESPONSE : esp_err_t := 0x1003

/-- Modelled from the spec: see `OAP_OTA_ERR_REQUEST_FAILED`. -/
def OAP_OTA_ERR_MALFORMED_INFO : esp_err_t := 0x1004

/-- Modelled from the spec: see `OAP_OTA_ERR_REQUEST_FAILED`. -/
def OAP_OTA_ERR_SHA_MISMATCH : esp_err_t := 0x1005

/-! ## Characters and strings -/

/-- The C string terminator. -/
def NUL : Char := Char.ofNat 0

/-- Memory holding the characters of `s` followed by NUL bytes. -/
def cbuf (s : List Char) : Nat → Char := fun i => s.getD i NUL

/-- The characters `line[0] .. line[n-1]`. -/
def mem_take (line : Nat → Char) (n : Nat) : List Char :=
  (List.range n).map line

/-- Memory `line` starts with the characters of `s`. -/
def starts_with (line : Nat → Char) (s : List Char) : Prop :=
  mem_take line s.length = s

instance (line : Nat → Char) (s : List Char) : Decidable (starts_with line s) := by
  unfold starts_with; infer_instance

/-- Modelled from the spec: `str_make` is defined in `oap_common`, which is not
among the sources. It copies `len` characters into a fresh NUL-terminated
string; following "a field is accepted only if non-empty" it gives `NULL` when
there is nothing to copy. -/
def str_make (str : Nat → Char) (len : Int) : Option (List Char) :=
  if len ≤ 0 then none else some (mem_take str len.toNat)

/-! ## Collaborators that are not part of `ota.c` -/

/-- The functions of `oap_common` and mbedTLS that `ota.c` calls and whose code
is not among the sources; `V` is `oap_version_t`, `Ctx` is the state of
`mbedtls_sha256_context`.

* `oap_version_parse str ver` is the returned code and the value left in `*ver`;
* `version_zero` is the `oap_version_t` whose bytes are all zero;
* `mbedtls_sha256_finish` gives the bytes of `hash[32]`. -/
structure Services (V Ctx : Type) where
  version_zero : V
  oap_version_parse : List Char → V → esp_err_t × V
  oap_version_num : V → Nat
  mbedtls_sha256_starts : Ctx
  mbedtls_sha256_update : Ctx → List Char → Ctx
  mbedtls_sha256_finish : Ctx → List Nat

/-! ## `ota_info_t` and `parse_ota_info` -/

/-- The record `ota_info_t`. -/
structure ota_info_t (V : Type) where
  ver : V
  file : Option (List Char)
  sha : Option (List Char)
deriving DecidableEq

/-- `is_white_char`. -/
def is_white_char (ch : Char) : Bool :=
  ch == '\n' || ch == '\r' || ch == '\t'

/-- The condition `line[i] == '|' || line[i] == 0 || is_white_char(line[i])`. -/
def is_field_end (ch : Char) : Bool :=
  ch == '|' || ch == NUL || is_white_char ch

/-- The locals `ver`, `file`, `sha` and `start` of `parse_ota_info`. -/
structure scan_t where
  ver : Option (List Char)
  file : Option (List Char)
  sha : Option (List Char)
  start : Nat
deriving DecidableEq

/-- The `do { i++; ... } while (line[i] && i < len)` loop of `parse_ota_info`;
`i` is the index after `i++`, and the body is entered at most `fuel` times.
The body is entered with `i = 0, 1, ..` and only while `i ≤ len`, so `len + 1`
entries are all there can be; `scan_loop_fuel` shows that more fuel changes
nothing. -/
def scan_loop (line : Nat → Char) (len : Nat) : Nat → Nat → scan_t → scan_t
  | 0, _, s => s
  | fuel + 1, i, s =>
    if is_field_end (line i) then
      if s.ver = none then
        let s1 := { s with ver := str_make (fun k => line (s.start + k)) ((i : Int) - s.start),
                           start := i + 1 }
        if line i ≠ NUL ∧ i < len then scan_loop line len fuel (i + 1) s1 else s1
      else if s.file = none then
        let s1 := { s with file := str_make (fun k => line (s.start + k)) ((i : Int) - s.start),
                           start := i + 1 }
        if line i ≠ NUL ∧ i < len then scan_loop line len fuel (i + 1) s1 else s1
      else if s.sha = none then
        { s with sha := str_make (fun k => line (s.start + k)) ((i : Int) - s.start) }
      else
        let s1 := { s with start := i + 1 }
        if line i ≠ NUL ∧ i < len then scan_loop line len fuel (i + 1) s1 else s1
    else
      if line i ≠ NUL ∧ i < len then scan_loop line len fuel (i + 1) s else s

/-- `parse_ota_info`: the returned code and the record behind `ota_info`
afterwards. -/
def parse_ota_info {V Ctx : Type} (X : Services V Ctx) (ota_info : ota_info_t V)
    (line : Nat → Char) (len : Int) : esp_err_t × ota_info_t V :=
  if len ≤ 0 then (OAP_OTA_ERR_EMPTY_RESPONSE, ota_info)
  else
    let s := scan_loop line len.toNat (len.toNat + 1) 0
      { ver := none, file := none, sha := none, start := 0 }
    match s.ver, s.file, s.sha with
    | none, _, _ => (OAP_OTA_ERR_MALFORMED_INFO, ota_info)
    | some _, none, _ => (OAP_OTA_ERR_MALFORMED_INFO, ota_info)
    | some _, some _, none => (OAP_OTA_ERR_MALFORMED_INFO, ota_info)
    | some ver, some file, some sha =>
      let r := X.oap_version_parse ver ota_info.ver
      if r.1 ≠ ESP_OK then (OAP_OTA_ERR_MALFORMED_INFO, { ota_info with ver := r.2 })
      else (ESP_OK, { ver := r.2, file := some file, sha := some sha })


/-! ## `sha_to_hex` -/

/-- The digit `printf` writes for `%x` at a value below 16. -/
def hex_digit (n : Nat) : Char :=
  if n < 10 then Char.ofNat (48 + n) else Char.ofNat (87 + n)

/-- The byte `hash[i]` of an `unsigned char` array. -/
def hash_byte (hash : List Nat) (i : Nat) : Nat := hash.getD i 0 % 256

/-- `snprintf(buf + off, 3, "%02x", b)` for a byte `b`: two digits and the
terminating NUL, written at `off`, `off + 1` and `off + 2`. -/
def snprintf_02x (buf : List Char) (off : Nat) (b : Nat) : List Char :=
  ((buf.set off (hex_digit (b / 16))).set (off + 1) (hex_digit (b % 16))).set (off + 2) NUL

/-- The body of `sha_to_hex` on the block `hex` returned by `malloc(2*32+1)`. -/
def sha_to_hex_in (hex : List Char) (hash : List Nat) : List Char :=
  (List.range 32).foldl (fun hex i => snprintf_02x hex (i * 2) (hash_byte hash i))
    (hex.set (2 * 32) NUL)

/-- `sha_to_hex`: the 65 bytes of the returned block. The block `malloc` hands
out is taken to be zero-filled; `sha_to_hex_in` overwrites every byte of it
(`sha_to_hex_in_eq` holds for any initial content). -/
def sha_to_hex (hash : List Nat) : List Char :=
  sha_to_hex_in (List.replicate (2 * 32 + 1) NUL) hash

/-- The C string stored in `buf`: its characters before the first NUL. -/
def cstr (buf : List Char) : List Char := buf.takeWhile (fun c => c != NUL)

/-- Lowercase hexadecimal encoding of the 32 bytes of `hash`, two characters per
byte, high nibble first (the encoding the manifest uses for digests). -/
def hex_encode (hash : List Nat) : List Char :=
  (List.range 32).flatMap (fun i => [hex_digit (hash_byte hash i / 16),
    hex_digit (hash_byte hash i % 16)])

/-! ## The transport -/

/-- One call of a download callback: `data` and `len`. -/
structure chunk_t where
  data : Nat → Char
  len : Int

/-- What `req_perform` does with a request: the chunks it hands to the
registered callback, in order, and the status it returns afterwards. -/
structure response_t where
  chunks : List chunk_t
  status : Int

/-- A chunk holding exactly the characters of `s`, NUL-terminated. -/
def chunk_of (s : List Char) : chunk_t := { data := cbuf s, len := s.length }

/-! ## Events -/

/-- The calls out of `ota.c` that are observable from outside. -/
inductive ota_event
  | esp_ota_get_running_partition
  | esp_ota_get_next_update_partition
  | wifi_connected_wait_for (ms : Int)
  | req_perform (path : List Char)
  | esp_ota_begin (partition : Option Nat)
  | esp_ota_write (handle : Nat) (data : List Char)
  | esp_ota_end (handle : Nat)
  | esp_ota_set_boot_partition (partition : Option Nat)
  | oap_reboot
  | delay (ms : Int)
deriving DecidableEq

/-! ## `fetch_last_ota_info` -/

/-- The record `ost_status_result_t`. -/
structure ost_status_result_t (V : Type) where
  found : Int
  err : esp_err_t
  binary : ota_info_t V

/-- `get_ota_status_callback`: the returned value and `*req->meta` afterwards. -/
def get_ota_status_callback {V Ctx : Type} (X : Services V Ctx)
    (result : ost_status_result_t V) (data : Nat → Char) (len : Int) :
    Int × ost_status_result_t V :=
  if result.found = 0 then
    let r := parse_ota_info X result.binary data len
    (0, { found := 1, err := r.1, binary := r.2 })
  else (0, result)

/-- `fetch_last_ota_info` when `req_perform` behaves as `resp`: the returned
code and the caller's `*ota_info` afterwards. The request path
`"%s/index.txt"` is built from `ota_config->path` alone, a constant of the
build that is taken to fit `path[200]`; nothing else of the configuration is
read, so the configuration is not a parameter here. -/
def fetch_last_ota_info {V Ctx : Type} (X : Services V Ctx) (ota_info : ota_info_t V)
    (resp : response_t) : esp_err_t × ota_info_t V :=
  let result0 : ost_status_result_t V :=
    { found := 0, err := 0, binary := { ver := X.version_zero, file := none, sha := none } }
  let result := resp.chunks.foldl
    (fun r ch => (get_ota_status_callback X r ch.data ch.len).2) result0
  if resp.status ≠ 200 then (OAP_OTA_ERR_REQUEST_FAILED, ota_info)
  else if result.found ≠ 0 then
    (result.err, if result.err = ESP_OK then result.binary else ota_info)
  else (OAP_OTA_ERR_EMPTY_RESPONSE, ota_info)

/-! ## `download_ota_binary` -/

/-- The record `ota_config_t`; `update_partition` is `none` for `NULL`. -/
structure ota_config_t where
  host : List Char
  path : List Char
  min_version : Nat
  commit_and_reboot : Int
  update_partition : Option Nat
  interval : Int
deriving DecidableEq

/-- The record `ota_download_callback_meta`, together with the storage writes
made so far; `update_partition` is the pointer value, `0` being `NULL`. -/
structure ota_download_callback_meta (Ctx : Type) where
  sha_context : Ctx
  update_partition : Nat
  writes : List ota_event

/-- `download_ota_binary_callback`: the returned value and the state behind
`req->meta` afterwards. `esp_ota_write k` is the result of the `k`-th call of
`esp_ota_write` (counted from 0) in this download. -/
def download_ota_binary_callback {V Ctx : Type} (X : Services V Ctx) (esp_ota_write : Nat → Int)
    (cb : ota_download_callback_meta Ctx) (data : Nat → Char) (len : Int) :
    Int × ota_download_callback_meta Ctx :=
  let bytes := mem_take data len.toNat
  let ctx := X.mbedtls_sha256_update cb.sha_context bytes
  if cb.update_partition ≠ 0 then
    (esp_ota_write cb.writes.length,
      { cb with sha_context := ctx,
                writes := cb.writes ++ [ota_event.esp_ota_write cb.update_partition bytes] })
  else (0, { cb with sha_context := ctx })

/-- The state behind `req->meta` after `req_perform` has delivered `chunks`. -/
def download_chunks {V Ctx : Type} (X : Services V Ctx) (esp_ota_write : Nat → Int)
    (cb : ota_download_callback_meta Ctx) (chunks : List chunk_t) :
    ota_download_callback_meta Ctx :=
  chunks.foldl (fun m ch => (download_ota_binary_callback X esp_ota_write m ch.data ch.len).2) cb

/-- Number of bytes `sprintf(path, "%s/%s", ota_config->path, ota_info->file)`
writes into `char path[200]`: the two strings, the `/` and the terminating NUL.
A `NULL` `file`, which no caller passes, is taken as the empty string. -/
def path_bytes {V : Type} (ota_config : ota_config_t) (ota_info : ota_info_t V) : Nat :=
  ota_config.path.length + 1 + (ota_info.file.getD []).length + 1

/-- `download_ota_binary` when `req_perform` behaves as `resp`: the returned code
and the storage writes made, or `none` when the call has no defined outcome.
The request path is written by an unchecked `sprintf` into `char path[200]`;
when its `path_bytes` exceed 200 the write runs past the buffer on the stack
and the function does not come back with a code. `strcmp(hex, ota_info->sha)
!= 0` compares the C string in `hex` with the string `sha` points at; a `NULL`
`sha`, which no caller passes, counts as different. -/
def download_ota_binary {V Ctx : Type} (X : Services V Ctx) (ota_config : ota_config_t)
    (ota_info : ota_info_t V) (update_partition : Nat) (resp : response_t)
    (esp_ota_write : Nat → Int) : Option (esp_err_t × List ota_event) :=
  if path_bytes ota_config ota_info ≤ 200 then
    let cb := download_chunks X esp_ota_write
      { sha_context := X.mbedtls_sha256_starts, update_partition := update_partition,
        writes := [] }
      resp.chunks
    if resp.status = 200 then
      let hash := X.mbedtls_sha256_finish cb.sha_context
      let hex := sha_to_hex hash
      if some (cstr hex) ≠ ota_info.sha then some (OAP_OTA_ERR_SHA_MISMATCH, cb.writes)
      else some (ESP_OK, cb.writes)
    else some (OAP_OTA_ERR_REQUEST_FAILED, cb.writes)
  else none

/-! ## `is_ota_update_available` and `check_ota_task` -/

/-- `is_ota_update_available`: the returned code and `*ota_info` afterwards. -/
def is_ota_update_available {V Ctx : Type} (X : Services V Ctx) (ota_config : ota_config_t)
    (ota_info : ota_info_t V) (resp : response_t) : esp_err_t × ota_info_t V :=
  let r := fetch_last_ota_info X ota_info resp
  if r.1 = ESP_OK then
    let remote_ver := X.oap_version_num r.2.ver
    if remote_ver ≤ ota_config.min_version then (OAP_OTA_ERR_NO_UPDATES, r.2)
    else (r.1, r.2)
  else (r.1, r.2)

/-- What the collaborators answer during one pass through the `while (1)` body
of `check_ota_task`. -/
structure cycle_env where
  wifi_connected_wait_for : esp_err_t
  index_response : response_t
  esp_ota_begin : esp_err_t × Nat
  binary_response : response_t
  esp_ota_write : Nat → Int
  esp_ota_end : esp_err_t
  esp_ota_set_boot_partition : esp_err_t

/-- How one pass through the loop body ends: at the label `go_sleep` (directly
or through `fail`), with `return ESP_OK` after `oap_reboot`, or not at all
because `download_ota_binary` wrote past its `path[200]`. -/
inductive cycle_exit
  | go_sleep
  | returned
  | path_overflow
deriving DecidableEq

/-- One pass through the loop body: the calls made, the value of `err` at the
end, how the pass ended, `ota_info` afterwards, and the value
`download_ota_binary` returned when it was called and returned (the code drops
it). -/
structure cycle_result (V : Type) where
  events : List ota_event
  err : esp_err_t
  exit : cycle_exit
  ota_info : ota_info_t V
  download : Option esp_err_t

/-- The body of the `while (1)` loop of `check_ota_task`, up to `go_sleep`.
As in the source, the value of `download_ota_binary` is not assigned to `err`,
and the function is handed `update_handle` in the place of its
`update_partition` parameter. When `download_ota_binary` runs past its
`path[200]` the pass stops there, before the image request. -/
def ota_cycle {V Ctx : Type} (X : Services V Ctx) (ota_config : ota_config_t)
    (ota_info : ota_info_t V) (env : cycle_env) : cycle_result V :=
  let ev0 := [ota_event.wifi_connected_wait_for 30000]
  if env.wifi_connected_wait_for ≠ ESP_OK then
    ⟨ev0, env.wifi_connected_wait_for, cycle_exit.go_sleep, ota_info, none⟩
  else
    let a := is_ota_update_available X ota_config ota_info env.index_response
    let ev1 := ev0 ++ [ota_event.req_perform (ota_config.path ++ "/index.txt".toList)]
    if a.1 ≠ ESP_OK then ⟨ev1, a.1, cycle_exit.go_sleep, a.2, none⟩
    else
      let b := env.esp_ota_begin
      let ev2 := ev1 ++ [ota_event.esp_ota_begin ota_config.update_partition]
      if b.1 ≠ ESP_OK then ⟨ev2, b.1, cycle_exit.go_sleep, a.2, none⟩
      else
        match download_ota_binary X ota_config a.2 b.2 env.binary_response env.esp_ota_write with
        | none => ⟨ev2, b.1, cycle_exit.path_overflow, a.2, none⟩
        | some d =>
          let ev3 := ev2 ++ [ota_event.req_perform (ota_config.path ++ '/' :: a.2.file.getD [])]
            ++ d.2
          let ev4 := ev3 ++ [ota_event.esp_ota_end b.2]
          if env.esp_ota_end ≠ ESP_OK then
            ⟨ev4, env.esp_ota_end, cycle_exit.go_sleep, a.2, some d.1⟩
          else if ota_config.commit_and_reboot ≠ 0 then
            let ev5 := ev4 ++ [ota_event.esp_ota_set_boot_partition ota_config.update_partition]
            if env.esp_ota_set_boot_partition ≠ ESP_OK then
              ⟨ev5, env.esp_ota_set_boot_partition, cycle_exit.go_sleep, a.2, some d.1⟩
            else
              ⟨ev5 ++ [ota_event.oap_reboot], ESP_OK, cycle_exit.returned, a.2, some d.1⟩
          else
            ⟨ev4, env.esp_ota_end, cycle_exit.go_sleep, a.2, some d.1⟩

/-- The `while (1)` loop of `check_ota_task`, run against the answers `envs` of
the collaborators, one entry per pass: the calls made and the value returned,
`none` when the task has not returned: it is still in the loop after the last
entry, or a pass stopped in the overflow of `path[200]`. -/
def ota_loop {V Ctx : Type} (X : Services V Ctx) (ota_config : ota_config_t) :
    List cycle_env → ota_info_t V → List ota_event × Option esp_err_t
  | [], _ => ([], none)
  | env :: envs, ota_info =>
    let r := ota_cycle X ota_config ota_info env
    match r.exit with
    | cycle_exit.returned => (r.events, some ESP_OK)
    | cycle_exit.path_overflow => (r.events, none)
    | cycle_exit.go_sleep =>
      if ota_config.interval ≤ 0 then (r.events, some r.err)
      else
        let rest := ota_loop X ota_config envs r.ota_info
        (r.events ++ ota_event.delay ota_config.interval :: rest.1, rest.2)

/-- `check_ota_task`: the configuration afterwards, the calls made and the value
returned. `next_update_partition` is what `esp_ota_get_next_update_partition`
answers, `ota_info` the initial content of the local of that name. -/
def check_ota_task {V Ctx : Type} (X : Services V Ctx) (ota_config : ota_config_t)
    (next_update_partition : Option Nat) (ota_info : ota_info_t V) (envs : List cycle_env) :
    ota_config_t × List ota_event × Option esp_err_t :=
  let ev0 := [ota_event.esp_ota_get_running_partition]
  let r := if ota_config.update_partition = none then
      ({ ota_config with update_partition := next_update_partition },
        ev0 ++ [ota_event.esp_ota_get_next_update_partition])
    else (ota_config, ev0)
  if r.1.update_partition = none then (r.1, r.2, some ESP_FAIL)
  else
    let l := ota_loop X r.1 envs ota_info
    (r.1, r.2 ++ l.1, l.2)

/-! ## `sha_to_hexstr` -/

/-- Memory `m` after the byte at index `i` was set to `c`. -/
def mem_set (m : Nat → Char) (i : Nat) (c : Char) : Nat → Char :=
  fun j => if j = i then c else m j

/-- `snprintf(hex + off, 3, "%02x", b)` for a byte `b` on the memory behind
`hex`: two digits and the terminating NUL. The second component lists the
indices written so far, in order. -/
def snprintf_02x_mem (m : (Nat → Char) × List Nat) (off : Nat) (b : Nat) :
    (Nat → Char) × List Nat :=
  (mem_set (mem_set (mem_set m.1 off (hex_digit (b / 16))) (off + 1) (hex_digit (b % 16)))
      (off + 2) NUL,
    m.2 ++ [off, off + 1, off + 2])

/-- `sha_to_hexstr`: the memory behind `hex` afterwards and the indices, relative
to `hex`, of the bytes written. -/
def sha_to_hexstr (hash : List Nat) (hex : Nat → Char) : (Nat → Char) × List Nat :=
  (List.range 32).foldl (fun m i => snprintf_02x_mem m (i * 2) (hash_byte hash i)) (hex, [])

/-! ## Auxiliary definitions used in the statements and proofs -/

/-- The characters of `s` are stored in `line` from index `a` on. -/
def seg_at (line : Nat → Char) (a : Nat) (s : List Char) : Prop :=
  ∀ k, (h : k < s.length) → line (a + k) = s[k]

/-- The state of the scan when the loop is entered. -/
def scan_init : scan_t := { ver := none, file := none, sha := none, start := 0 }

/-- Number of the locals `ver`, `file`, `sha` that are not `NULL`. -/
def nfilled (s : scan_t) : Nat :=
  s.ver.isSome.toNat + s.file.isSome.toNat + s.sha.isSome.toNat

/-- Number of non-empty fields that end inside `cs`: a field ends at every
character satisfying `is_field_end`, and `b` tells whether the field running
into `cs` already has a character. -/
def token_ends : Bool → List Char → Nat
  | _, [] => 0
  | b, c :: cs =>
    if is_field_end c then b.toNat + token_ends false cs else token_ends true cs

/-- The fields `fs` written with `|` between neighbours. -/
def join_fields : List (List Char) → List Char
  | [] => []
  | [f] => f
  | f :: g :: fs => f ++ '|' :: join_fields (g :: fs)

/-- One of the characters `0`..`9`, `a`..`f`. -/
def is_lower_hex (c : Char) : Bool :=
  ('0' ≤ c && c ≤ '9') || ('a' ≤ c && c ≤ 'f')

/-- A digest on the wire: 64 lowercase hexadecimal characters. -/
def is_hex_digest (h : List Char) : Prop :=
  h.length = 64 ∧ ∀ c ∈ h, is_lower_hex c = true

instance (h : List Char) : Decidable (is_hex_digest h) := by
  unfold is_hex_digest; infer_instance

/-- The encoding of the first `k` bytes of `hash`. -/
def hex_encode_upto (hash : List Nat) (k : Nat) : List Char :=
  (List.range k).flatMap (fun i => [hex_digit (hash_byte hash i / 16),
    hex_digit (hash_byte hash i % 16)])

/-- The record `parse_ota_info` is handed by `get_ota_status_callback` for the
first chunk: the zeroed `result.binary`. -/
def zero_info {V Ctx : Type} (X : Services V Ctx) : ota_info_t V :=
  { ver := X.version_zero, file := none, sha := none }

/-- The digest of the accumulator after it was fed the `len` bytes of every
chunk in arrival order. -/
def fed_digest {V Ctx : Type} (X : Services V Ctx) (chunks : List chunk_t) : List Nat :=
  X.mbedtls_sha256_finish
    (chunks.foldl (fun ctx ch => X.mbedtls_sha256_update ctx (mem_take ch.data ch.len.toNat))
      X.mbedtls_sha256_starts)

/-- The calls that touch the update partition, the boot target or restart the
device. -/
def is_storage_event : ota_event → Bool
  | ota_event.esp_ota_begin _ => true
  | ota_event.esp_ota_write _ _ => true
  | ota_event.esp_ota_end _ => true
  | ota_event.esp_ota_set_boot_partition _ => true
  | ota_event.oap_reboot => true
  | _ => false

/-- The event is none of the partition look-ups, and when it is an
`esp_ota_begin` or `esp_ota_set_boot_partition` it is made on `p`. -/
def cycle_event_on (p : Option Nat) : ota_event → Bool
  | ota_event.esp_ota_begin q => decide (q = p)
  | ota_event.esp_ota_set_boot_partition q => decide (q = p)
  | ota_event.esp_ota_get_next_update_partition => false
  | ota_event.esp_ota_get_running_partition => false
  | _ => true

/-- The value of a hexadecimal digit `0`..`9`, `a`..`f`. -/
def hex_value (c : Char) : Nat :=
  if c.toNat < 58 then c.toNat - 48 else c.toNat - 87

/-- Decoding of a hexadecimal string, two characters per byte, high nibble
first. -/
def hex_decode : List Char → List Nat
  | hi :: lo :: rest => (hex_value hi * 16 + hex_value lo) :: hex_decode rest
  | _ => []

/-! ## A sample instance of the collaborators -/

/-- A decimal number: a non-empty run of digits. -/
def sample_number (s : List Char) : Option Nat :=
  if s ≠ [] ∧ s.all Char.isDigit = true then
    some (s.foldl (fun n c => 10 * n + (c.toNat - 48)) 0)
  else none

/-- Modelled from the spec: `oap_version_parse`, `oap_version_num` and the
SHA-256 accumulator are not among the sources. This instance is used only to
evaluate the embedding at concrete inputs: a version is a "semantic triple"
`major.minor.patch` with numeric form `major * 10000 + minor * 100 + patch`,
and the accumulator is a small rolling checksum spread over 32 bytes. -/
def sample_services : Services (Nat × Nat × Nat) Nat where
  version_zero := (0, 0, 0)
  oap_version_parse := fun s ver =>
    match (s.splitOn '.').map sample_number with
    | [some a, some b, some c] => (ESP_OK, (a, b, c))
    | _ => (ESP_FAIL, ver)
  oap_version_num := fun v => v.1 * 10000 + v.2.1 * 100 + v.2.2
  mbedtls_sha256_starts := 7
  mbedtls_sha256_update := fun ctx data => data.foldl (fun h c => (h * 31 + c.toNat) % 65521) ctx
  mbedtls_sha256_finish := fun ctx => (List.range 32).map (fun i => (ctx * (i + 1) + i) % 256)

/-- The manifest line of the examples: version `2.0.0`, file `app.bin` and the
digest `sample_services` computes for the payload `0123456789`. -/
def sample_line : List Char :=
  "2.0.0|app.bin|c68d541be2a97037fec58c531ae1a86f36fdc48b5219e0a76e35fcc38a5118df".toList

/-- The configuration and answers of scenario A of the spec under
`sample_services`: minimum version 1.0.0, auto-commit, manifest `sample_line`,
every storage call succeeding; the image body is `body`. -/
def sample_config : ota_config_t :=
  { host := "ota.example".toList, path := "/fw".toList, min_version := 10000,
    commit_and_reboot := 1, update_partition := some 2, interval := 0 }

/-- See `sample_config`. -/
def sample_env (body : List Char) : cycle_env :=
  { wifi_connected_wait_for := ESP_OK,
    index_response := { chunks := [chunk_of sample_line], status := 200 },
    esp_ota_begin := (ESP_OK, 5),
    binary_response := { chunks := [chunk_of body], status := 200 },
    esp_ota_write := fun _ => 0,
    esp_ota_end := ESP_OK,
    esp_ota_set_boot_partition := ESP_OK }

/-! # Properties -/

/-! ## Memory and segments -/

theorem mem_take_length (line : Nat → Char) (n : Nat) : (mem_take line n).length = n := by
  simp [mem_take]

theorem mem_take_eq_of_seg_at {line : Nat → Char} {a : Nat} {s : List Char}
    (h : seg_at line a s) : mem_take (fun k => line (a + k)) s.length = s := by
  apply List.ext_getElem
  · simp [mem_take]
  · intro k h1 h2
    simp [mem_take, h k h2]

theorem starts_with_iff_seg_at (line : Nat → Char) (s : List Char) :
    starts_with line s ↔ seg_at line 0 s := by
  constructor
  · intro h k hk
    have h1 : (mem_take line s.length)[k]? = s[k]? := by
      simp only [starts_with] at h
      rw [h]
    simpa [mem_take, hk] using h1
  · intro h
    have := mem_take_eq_of_seg_at h
    simpa [starts_with] using this

theorem seg_at_cons (line : Nat → Char) (a : Nat) (c : Char) (s : List Char) :
    seg_at line a (c :: s) ↔ line a = c ∧ seg_at line (a + 1) s := by
  constructor
  · intro h
    refine ⟨by simpa using h 0 (by simp), ?_⟩
    intro k hk
    have := h (k + 1) (by simpa using hk)
    simpa [Nat.add_assoc, Nat.add_comm 1 k] using this
  · rintro ⟨h0, h1⟩ k hk
    cases k with
    | zero => simpa using h0
    | succ k =>
      have := h1 k (by simpa using hk)
      simpa [Nat.add_assoc, Nat.add_comm 1 k] using this

theorem seg_at_append (line : Nat → Char) (a : Nat) (x y : List Char) :
    seg_at line a (x ++ y) ↔ seg_at line a x ∧ seg_at line (a + x.length) y := by
  induction x generalizing a with
  | nil => simp [seg_at]
  | cons c x ih =>
    simp only [List.cons_append, seg_at_cons, ih, List.length_cons]
    simp [Nat.add_assoc, Nat.add_comm 1, and_assoc]

theorem str_make_of_seg_at {line : Nat → Char} {a : Nat} {x : List Char}
    (h : seg_at line a x) (hx : x ≠ []) :
    str_make (fun k => line (a + k)) (((a + x.length : Nat) : Int) - (a : Nat)) = some x := by
  have hpos : 0 < x.length := List.length_pos.mpr hx
  have e : ((a + x.length : Nat) : Int) - (a : Nat) = (x.length : Nat) := by push_cast; ring
  rw [e]
  unfold str_make
  rw [if_neg (by omega)]
  simp [mem_take_eq_of_seg_at h]

theorem str_make_empty (str : Nat → Char) (a : Nat) :
    str_make str (((a : Nat) : Int) - (a : Nat)) = none := by
  simp [str_make]

/-! ## Stepping the scan loop -/

theorem is_field_end_ne_NUL {c : Char} (h : is_field_end c = false) : c ≠ NUL := by
  rintro rfl
  simp [is_field_end] at h

theorem scan_loop_skip (line : Nat → Char) (len : Nat) (x : List Char) :
    ∀ (fuel i : Nat) (s : scan_t), seg_at line i x → (∀ c ∈ x, is_field_end c = false) →
      i + x.length ≤ len →
      scan_loop line len (fuel + x.length) i s = scan_loop line len fuel (i + x.length) s := by
  induction x with
  | nil => intro fuel i s _ _ _; simp
  | cons c x ih =>
    intro fuel i s hseg hx hlen
    rw [seg_at_cons] at hseg
    have hc : is_field_end (line i) = false := by rw [hseg.1]; exact hx c (by simp)
    have hn : line i ≠ NUL := is_field_end_ne_NUL hc
    have hi : i < len := by simp at hlen; omega
    have e : fuel + (c :: x).length = (fuel + x.length) + 1 := by simp; omega
    rw [e, scan_loop, hc]
    simp only [Bool.false_eq_true, if_false, hn, hi, ne_eq, not_false_eq_true, and_self, if_true]
    rw [ih fuel (i + 1) s hseg.2 (fun c hc => hx c (by simp [hc])) (by simp at hlen; omega)]
    congr 1
    simp; omega

theorem scan_loop_at_ver (line : Nat → Char) (len fuel i : Nat) (s : scan_t)
    (he : is_field_end (line i) = true) (hn : line i ≠ NUL) (hi : i < len)
    (hv : s.ver = none) :
    scan_loop line len (fuel + 1) i s =
      scan_loop line len fuel (i + 1)
        { s with ver := str_make (fun k => line (s.start + k)) ((i : Int) - s.start),
                 start := i + 1 } := by
  rw [scan_loop]
  simp [he, hn, hi, hv]

theorem scan_loop_at_file (line : Nat → Char) (len fuel i : Nat) (s : scan_t)
    (he : is_field_end (line i) = true) (hn : line i ≠ NUL) (hi : i < len)
    (hv : s.ver ≠ none) (hf : s.file = none) :
    scan_loop line len (fuel + 1) i s =
      scan_loop line len fuel (i + 1)
        { s with file := str_make (fun k => line (s.start + k)) ((i : Int) - s.start),
                 start := i + 1 } := by
  rw [scan_loop]
  simp [he, hn, hi, hv, hf]

theorem scan_loop_at_sha (line : Nat → Char) (len fuel i : Nat) (s : scan_t)
    (he : is_field_end (line i) = true)
    (hv : s.ver ≠ none) (hf : s.file ≠ none) (hs : s.sha = none) :
    scan_loop line len (fuel + 1) i s =
      { s with sha := str_make (fun k => line (s.start + k)) ((i : Int) - s.start) } := by
  rw [scan_loop]
  simp [he, hv, hf, hs]

theorem scan_loop_fuel (line : Nat → Char) (len : Nat) :
    ∀ (fuel i : Nat) (s : scan_t), i ≤ len → len + 1 ≤ i + fuel →
      scan_loop line len (fuel + 1) i s = scan_loop line len fuel i s := by
  intro fuel
  induction fuel with
  | zero => intro i s hi hf; omega
  | succ fuel ih =>
    intro i s hi hf
    have key : ∀ s1 : scan_t,
        (if line i ≠ NUL ∧ i < len then scan_loop line len (fuel + 1) (i + 1) s1 else s1) =
          (if line i ≠ NUL ∧ i < len then scan_loop line len fuel (i + 1) s1 else s1) := by
      intro s1
      by_cases h : line i ≠ NUL ∧ i < len
      · rw [if_pos h, if_pos h]
        exact ih (i + 1) s1 (by omega) (by omega)
      · rw [if_neg h, if_neg h]
    conv_lhs => rw [scan_loop]
    conv_rhs => rw [scan_loop]
    simp only [key]

theorem is_field_end_pipe : is_field_end '|' = true := by decide

theorem pipe_ne_NUL : '|' ≠ NUL := by decide

theorem scan_loop_well_formed (line : Nat → Char) (len : Nat) (V F H : List Char) (t : Char)
    (hV : V ≠ []) (hF : F ≠ []) (hH : H ≠ [])
    (hVc : ∀ c ∈ V, is_field_end c = false) (hFc : ∀ c ∈ F, is_field_end c = false)
    (hHc : ∀ c ∈ H, is_field_end c = false) (ht : is_field_end t = true)
    (hline : starts_with line (V ++ '|' :: (F ++ '|' :: (H ++ [t]))))
    (hlen : V.length + 1 + F.length + 1 + H.length ≤ len) :
    scan_loop line len (len + 1) 0 scan_init =
      { ver := some V, file := some F, sha := some H, start := V.length + 1 + F.length + 1 } := by
  rw [starts_with_iff_seg_at] at hline
  simp only [seg_at_append, seg_at_cons, List.length_cons, List.length_append] at hline
  obtain ⟨sV, hp1, sF, hp2, sH, hpt, -⟩ := hline
  obtain ⟨m, hm⟩ : ∃ m, len + 1 = ((((m + 1) + H.length) + 1) + F.length + 1) + V.length :=
    ⟨len - (V.length + 1 + F.length + 1 + H.length), by omega⟩
  rw [hm, scan_loop_skip line len V _ 0 _ sV hVc (by omega),
    scan_loop_at_ver _ _ _ _ _ (by rw [hp1]; exact is_field_end_pipe)
      (by rw [hp1]; exact pipe_ne_NUL) (by omega) rfl]
  have e1 : str_make (fun k => line (scan_init.start + k)) (((0 + V.length : Nat) : Int)
      - (scan_init.start : Nat)) = some V := str_make_of_seg_at sV hV
  rw [e1, scan_loop_skip line len F _ _ _ sF hFc (by omega),
    scan_loop_at_file _ _ _ _ _ (by rw [hp2]; exact is_field_end_pipe)
      (by rw [hp2]; exact pipe_ne_NUL) (by omega) (by simp) rfl]
  have e2 : str_make (fun k => line (0 + V.length + 1 + k))
      (((0 + V.length + 1 + F.length : Nat) : Int) - ((0 + V.length + 1 : Nat) : Int)) = some F :=
    str_make_of_seg_at sF hF
  simp only [] at e2 ⊢
  rw [e2, scan_loop_skip line len H _ _ _ sH hHc (by omega),
    scan_loop_at_sha _ _ _ _ _ (by rw [hpt]; exact ht) (by simp) (by simp) rfl]
  have e3 : str_make (fun k => line (0 + V.length + 1 + F.length + 1 + k))
      (((0 + V.length + 1 + F.length + 1 + H.length : Nat) : Int)
        - ((0 + V.length + 1 + F.length + 1 : Nat) : Int)) = some H :=
    str_make_of_seg_at sH hH
  simp only [] at e3 ⊢
  rw [e3]
  simp


/-! ## Counting the fields a scan can fill -/

theorem str_make_isSome (str : Nat → Char) (i start : Nat) :
    (str_make str ((i : Int) - (start : Nat))).isSome = decide (start < i) := by
  unfold str_make
  by_cases h : start < i
  · rw [if_neg (by omega)]; simp [h]
  · rw [if_pos (by omega)]; simp [h]

theorem nfilled_scan_loop_le (line : Nat → Char) (len : Nat) :
    ∀ (fuel i : Nat) (s : scan_t), s.start ≤ i →
      nfilled (scan_loop line len fuel i s) ≤
        nfilled s + token_ends (decide (s.start < i)) ((List.range' i fuel).map line) := by
  intro fuel
  induction fuel with
  | zero => intro i s _; simp [scan_loop]
  | succ fuel ih =>
    intro i s hs
    have hnext : ∀ s1 : scan_t, s1.start ≤ i + 1 →
        nfilled (if line i ≠ NUL ∧ i < len then scan_loop line len fuel (i + 1) s1 else s1) ≤
          nfilled s1 + token_ends (decide (s1.start < i + 1))
            ((List.range' (i + 1) fuel).map line) := by
      intro s1 h1
      split
      · exact ih (i + 1) s1 h1
      · omega
    rw [scan_loop, List.range'_succ, List.map_cons, token_ends]
    by_cases he : is_field_end (line i) = true
    · simp only [he, if_true]
      by_cases hv : s.ver = none
      · simp only [hv, if_true]
        refine (hnext _ (by simp)).trans ?_
        simp [nfilled, str_make_isSome, hv]
        omega
      · simp only [hv, if_false]
        by_cases hf : s.file = none
        · simp only [hf, if_true]
          refine (hnext _ (by simp)).trans ?_
          simp [nfilled, str_make_isSome, hf]
          omega
        · simp only [hf, if_false]
          by_cases hh : s.sha = none
          · simp only [hh, if_true]
            simp [nfilled, str_make_isSome, hh]
          · simp only [hh, if_false]
            refine (hnext _ (by simp)).trans ?_
            simp [nfilled]
    · simp only [he, if_false, Bool.false_eq_true]
      refine (hnext s (by omega)).trans ?_
      have : decide (s.start < i + 1) = true := by simp; omega
      rw [this]

theorem parse_ota_info_few_fields {V Ctx : Type} (X : Services V Ctx) (ota_info : ota_info_t V)
    (line : Nat → Char) (len : Nat) (hlen : 0 < len)
    (h : token_ends false (mem_take line (len + 1)) < 3) :
    parse_ota_info X ota_info line (len : Int) = (OAP_OTA_ERR_MALFORMED_INFO, ota_info) := by
  have hb := nfilled_scan_loop_le line len (len + 1) 0 scan_init (Nat.le_refl 0)
  have hr : (List.range' 0 (len + 1)).map line = mem_take line (len + 1) := by
    simp [mem_take, List.range_eq_range']
  rw [hr] at hb
  have h3 : nfilled (scan_loop line len (len + 1) 0 scan_init) < 3 := by
    simp [nfilled, scan_init] at hb ⊢
    omega
  unfold parse_ota_info
  rw [if_neg (by omega)]
  simp only [Int.toNat_ofNat]
  change (match (scan_loop line len (len + 1) 0 scan_init).ver,
      (scan_loop line len (len + 1) 0 scan_init).file,
      (scan_loop line len (len + 1) 0 scan_init).sha with
    | none, _, _ => (OAP_OTA_ERR_MALFORMED_INFO, ota_info)
    | some _, none, _ => (OAP_OTA_ERR_MALFORMED_INFO, ota_info)
    | some _, some _, none => (OAP_OTA_ERR_MALFORMED_INFO, ota_info)
    | some ver, some file, some sha =>
      if (X.oap_version_parse ver ota_info.ver).1 ≠ ESP_OK then
        (OAP_OTA_ERR_MALFORMED_INFO, { ota_info with ver := (X.oap_version_parse ver ota_info.ver).2 })
      else (ESP_OK, { ver := (X.oap_version_parse ver ota_info.ver).2, file := some file, sha := some sha })) = _
  split
  · rfl
  · rfl
  · rfl
  · rename_i hv hf hh
    simp [nfilled, hv, hf, hh] at h3

/-! ### Fields of a line -/

theorem token_ends_append_field (x r : List Char) (b : Bool)
    (hx : ∀ c ∈ x, is_field_end c = false) :
    token_ends b (x ++ r) = token_ends (b || !x.isEmpty) r := by
  induction x generalizing b with
  | nil => simp
  | cons c x ih =>
    have hc : is_field_end c = false := hx c (by simp)
    rw [List.cons_append, token_ends, hc]
    simp only [Bool.false_eq_true, if_false]
    rw [ih true (fun c hc => hx c (by simp [hc]))]
    simp

theorem token_ends_all_ends (t : List Char) (b : Bool)
    (ht : ∀ c ∈ t, is_field_end c = true) : token_ends b t ≤ b.toNat := by
  induction t generalizing b with
  | nil => simp [token_ends]
  | cons c t ih =>
    have hc : is_field_end c = true := ht c (by simp)
    rw [token_ends, hc]
    have := ih false (fun c hc => ht c (by simp [hc]))
    simp at this ⊢
    omega

theorem token_ends_join_fields (fs : List (List Char)) (t : List Char)
    (hfs : ∀ f ∈ fs, ∀ c ∈ f, is_field_end c = false)
    (ht : ∀ c ∈ t, is_field_end c = true) :
    ∀ b : Bool, token_ends b (join_fields fs ++ t) ≤
      b.toNat + (fs.filter (fun f => !f.isEmpty)).length := by
  induction fs with
  | nil =>
    intro b
    simpa [join_fields] using token_ends_all_ends t b ht
  | cons f fs ih =>
    intro b
    have hf : ∀ c ∈ f, is_field_end c = false := hfs f (by simp)
    cases fs with
    | nil =>
      simp only [join_fields]
      rw [token_ends_append_field f t b hf]
      have := token_ends_all_ends t (b || !f.isEmpty) ht
      cases b <;> cases hfe : f.isEmpty <;> simp [hfe, List.filter] at this ⊢ <;> omega
    | cons g fs =>
      simp only [join_fields, List.append_assoc, List.cons_append]
      rw [token_ends_append_field f _ b hf, token_ends, is_field_end_pipe]
      have := ih (fun f hf => hfs f (by simp [hf])) false
      simp only [List.append_assoc, if_true]
      rw [List.filter_cons]
      cases b <;> cases hfe : f.isEmpty <;> simp [hfe] at this ⊢ <;> omega

/-- A line of at most three fields with one of them absent or empty has fewer
than three non-empty fields. -/
theorem filter_nonempty_lt_three (fs : List (List Char)) (hfs : fs.length ≤ 3)
    (hmiss : fs.length < 3 ∨ [] ∈ fs) :
    (fs.filter (fun f => !f.isEmpty)).length < 3 := by
  rcases hmiss with h | h
  · exact lt_of_le_of_lt (List.length_filter_le _ _) h
  · have h1 : (fs.filter (fun f => !f.isEmpty)).length < fs.length := by
      apply List.length_filter_lt_length_iff_exists.mpr
      exact ⟨[], h, by simp⟩
    omega


/-! ### Every field a scan fills is non-empty -/

theorem str_make_ne_nil (str : Nat → Char) (len : Int) : str_make str len ≠ some [] := by
  unfold str_make
  split
  · simp
  · intro h
    have h1 := congrArg (Option.map List.length) h
    simp [mem_take] at h1
    omega

theorem scan_loop_fields_nonempty (line : Nat → Char) (len : Nat) :
    ∀ (fuel i : Nat) (s : scan_t),
      (s.ver ≠ some [] ∧ s.file ≠ some [] ∧ s.sha ≠ some []) →
      ((scan_loop line len fuel i s).ver ≠ some [] ∧ (scan_loop line len fuel i s).file ≠ some []
        ∧ (scan_loop line len fuel i s).sha ≠ some []) := by
  intro fuel
  induction fuel with
  | zero => intro i s h; simpa [scan_loop] using h
  | succ fuel ih =>
    intro i s h
    rw [scan_loop]
    split
    · split
      · split
        · exact ih _ _ ⟨str_make_ne_nil _ _, h.2.1, h.2.2⟩
        · exact ⟨str_make_ne_nil _ _, h.2.1, h.2.2⟩
      · split
        · split
          · exact ih _ _ ⟨h.1, str_make_ne_nil _ _, h.2.2⟩
          · exact ⟨h.1, str_make_ne_nil _ _, h.2.2⟩
        · split
          · exact ⟨h.1, h.2.1, str_make_ne_nil _ _⟩
          · split
            · exact ih _ _ h
            · exact h
    · split
      · exact ih _ _ h
      · exact h

/-! ### Lowercase hexadecimal digests -/

theorem is_field_end_of_lower_hex {c : Char} (h : is_lower_hex c = true) :
    is_field_end c = false := by
  by_contra hc
  have hc1 : is_field_end c = true := by simpa using hc
  simp only [is_field_end, is_white_char, Bool.or_eq_true, beq_iff_eq] at hc1
  rcases hc1 with (rfl | rfl) | (rfl | rfl) | rfl <;> revert h <;> decide


/-! ## `sha_to_hex` writes the hexadecimal encoding -/

theorem hex_encode_upto_length (hash : List Nat) (k : Nat) :
    (hex_encode_upto hash k).length = 2 * k := by
  induction k with
  | zero => simp [hex_encode_upto]
  | succ k ih =>
    unfold hex_encode_upto at ih ⊢
    rw [List.range_succ, List.flatMap_append, List.length_append, ih]
    simp
    omega

theorem hex_encode_upto_succ (hash : List Nat) (k : Nat) :
    hex_encode_upto hash (k + 1) =
      hex_encode_upto hash k ++ [hex_digit (hash_byte hash k / 16),
        hex_digit (hash_byte hash k % 16)] := by
  unfold hex_encode_upto
  rw [List.range_succ, List.flatMap_append]
  simp

theorem snprintf_02x_append (e r : List Char) (b : Nat) (h : 3 ≤ r.length) :
    snprintf_02x (e ++ r) e.length b =
      (e ++ [hex_digit (b / 16), hex_digit (b % 16)]) ++ NUL :: r.drop 3 := by
  match r, h with
  | r0 :: r1 :: r2 :: r, _ =>
    unfold snprintf_02x
    rw [List.set_append_right _ _ (by simp), List.set_append_right _ _ (by simp),
      List.set_append_right _ _ (by simp)]
    simp

theorem sha_to_hex_fold (hash : List Nat) (buf : List Char) (hbuf : buf.length = 65) :
    ∀ k, k ≤ 32 → ∃ t : List Char, t.length = 65 - 2 * k ∧ (0 < k → t.head? = some NUL) ∧
      (List.range k).foldl (fun hex i => snprintf_02x hex (i * 2) (hash_byte hash i)) buf =
        hex_encode_upto hash k ++ t := by
  intro k
  induction k with
  | zero => intro _; exact ⟨buf, by simp [hbuf], by simp, by simp [hex_encode_upto]⟩
  | succ k ih =>
    intro hk
    obtain ⟨t, ht, -, hfold⟩ := ih (by omega)
    refine ⟨NUL :: t.drop 3, by simp [ht]; omega, by simp, ?_⟩
    rw [List.range_succ, List.foldl_append, hfold]
    have hoff : k * 2 = (hex_encode_upto hash k).length := by
      rw [hex_encode_upto_length]; omega
    simp only [List.foldl_cons, List.foldl_nil]
    rw [hoff, snprintf_02x_append _ _ _ (by omega), hex_encode_upto_succ]

theorem hex_digit_ne_NUL (n : Nat) (h : n < 16) : hex_digit n ≠ NUL := by
  revert n; decide

theorem hex_digit_lower_hex (n : Nat) (h : n < 16) : is_lower_hex (hex_digit n) = true := by
  revert n; decide

theorem hex_encode_upto_lower_hex (hash : List Nat) (k : Nat) :
    ∀ c ∈ hex_encode_upto hash k, is_lower_hex c = true := by
  intro c hc
  simp only [hex_encode_upto, List.mem_flatMap, List.mem_range, List.mem_cons,
    List.mem_singleton, List.not_mem_nil, or_false] at hc
  obtain ⟨i, -, rfl | rfl⟩ := hc
  · exact hex_digit_lower_hex _ (by unfold hash_byte; omega)
  · exact hex_digit_lower_hex _ (by omega)

theorem sha_to_hex_in_eq (hex : List Char) (hash : List Nat) (h : hex.length = 65) :
    sha_to_hex_in hex hash = hex_encode hash ++ [NUL] := by
  obtain ⟨t, ht, hhead, hfold⟩ := sha_to_hex_fold hash (hex.set (2 * 32) NUL) (by simp [h]) 32
    (Nat.le_refl 32)
  unfold sha_to_hex_in
  rw [hfold]
  match t, ht, hhead (by decide) with
  | [c], _, hc =>
    simp at hc
    subst hc
    rfl

theorem cstr_sha_to_hex (hash : List Nat) : cstr (sha_to_hex hash) = hex_encode hash := by
  unfold sha_to_hex
  rw [sha_to_hex_in_eq _ _ (by simp)]
  unfold cstr
  rw [List.takeWhile_append_of_pos]
  · simp [List.takeWhile]
  · intro c hc
    have h1 := hex_encode_upto_lower_hex hash 32 c hc
    have h2 := is_field_end_of_lower_hex h1
    simpa using is_field_end_ne_NUL h2


theorem parse_ota_info_pos {V Ctx : Type} (X : Services V Ctx) (ota_info : ota_info_t V)
    (line : Nat → Char) (len : Nat) (hlen : 0 < len) :
    parse_ota_info X ota_info line (len : Int) =
      match (scan_loop line len (len + 1) 0 scan_init).ver,
        (scan_loop line len (len + 1) 0 scan_init).file,
        (scan_loop line len (len + 1) 0 scan_init).sha with
      | none, _, _ => (OAP_OTA_ERR_MALFORMED_INFO, ota_info)
      | some _, none, _ => (OAP_OTA_ERR_MALFORMED_INFO, ota_info)
      | some _, some _, none => (OAP_OTA_ERR_MALFORMED_INFO, ota_info)
      | some ver, some file, some sha =>
        if (X.oap_version_parse ver ota_info.ver).1 ≠ ESP_OK then
          (OAP_OTA_ERR_MALFORMED_INFO,
            { ota_info with ver := (X.oap_version_parse ver ota_info.ver).2 })
        else (ESP_OK, { ver := (X.oap_version_parse ver ota_info.ver).2,
                        file := some file, sha := some sha }) := by
  unfold parse_ota_info
  rw [if_neg (by omega)]
  rfl

theorem parse_ota_info_three_fields {V Ctx : Type} (X : Services V Ctx) (ota_info : ota_info_t V)
    (line : Nat → Char) (len : Nat) (Vs F H : List Char) (t : Char)
    (hV : Vs ≠ []) (hacc : (X.oap_version_parse Vs ota_info.ver).1 = ESP_OK)
    (hF : F ≠ []) (hH : H ≠ [])
    (hVc : ∀ c ∈ Vs, is_field_end c = false) (hFc : ∀ c ∈ F, is_field_end c = false)
    (hHc : ∀ c ∈ H, is_field_end c = false) (ht : is_field_end t = true)
    (hline : starts_with line (Vs ++ '|' :: (F ++ '|' :: (H ++ [t]))))
    (hlen : Vs.length + 1 + F.length + 1 + H.length ≤ len) :
    parse_ota_info X ota_info line (len : Int) =
      (ESP_OK, { ver := (X.oap_version_parse Vs ota_info.ver).2, file := some F, sha := some H }) := by
  have hpos : 0 < len := by omega
  rw [parse_ota_info_pos X ota_info line len hpos,
    scan_loop_well_formed line len Vs F H t hV hF hH hVc hFc hHc ht hline hlen]
  simp [hacc]

theorem starts_with_left {line : Nat → Char} {a b : List Char}
    (h : starts_with line (a ++ b)) : starts_with line a := by
  rw [starts_with_iff_seg_at] at h ⊢
  exact ((seg_at_append line 0 a b).mp h).1

theorem is_field_end_of_white {c : Char} (h : is_white_char c = true) :
    is_field_end c = true := by
  simp [is_field_end, h]

/-- C2: a NUL-terminated line `V|F|H` with a version string `V` that
`oap_version_parse` accepts, a non-empty `F` and a digest `H` of 64 lowercase
hexadecimal characters, none of the fields containing a field end, parses with
`ESP_OK` to the version of `V`, `file = F` and `sha = H`; and so does the line
followed by a whitespace character `w` and any further characters `G`, with
`len` extended accordingly. -/
theorem parse_ota_info_well_formed_line {V Ctx : Type} (X : Services V Ctx)
    (ota_info : ota_info_t V) (line : Nat → Char) (Vs F H G : List Char) (w : Char)
    (hV : Vs ≠ []) (hacc : (X.oap_version_parse Vs ota_info.ver).1 = ESP_OK)
    (hF : F ≠ []) (hH : is_hex_digest H)
    (hVc : ∀ c ∈ Vs, is_field_end c = false) (hFc : ∀ c ∈ F, is_field_end c = false)
    (hHc : ∀ c ∈ H, is_field_end c = false) (hw : is_white_char w = true) :
    (starts_with line (Vs ++ '|' :: (F ++ '|' :: (H ++ [NUL]))) →
      parse_ota_info X ota_info line ((Vs ++ '|' :: (F ++ '|' :: H)).length : Nat) =
        (ESP_OK, { ver := (X.oap_version_parse Vs ota_info.ver).2,
                   file := some F, sha := some H })) ∧
    (starts_with line (Vs ++ '|' :: (F ++ '|' :: (H ++ w :: (G ++ [NUL])))) →
      parse_ota_info X ota_info line ((Vs ++ '|' :: (F ++ '|' :: (H ++ w :: G))).length : Nat) =
        (ESP_OK, { ver := (X.oap_version_parse Vs ota_info.ver).2,
                   file := some F, sha := some H })) := by
  have hHne : H ≠ [] := by
    intro h
    have := hH.1
    simp [h] at this
  constructor
  · intro hline
    exact parse_ota_info_three_fields X ota_info line _ Vs F H NUL hV hacc hF hHne hVc hFc hHc
      (by decide) hline (by simp; omega)
  · intro hline
    have e : Vs ++ '|' :: (F ++ '|' :: (H ++ w :: (G ++ [NUL]))) =
        (Vs ++ '|' :: (F ++ '|' :: (H ++ [w]))) ++ (G ++ [NUL]) := by simp
    rw [e] at hline
    exact parse_ota_info_three_fields X ota_info line _ Vs F H w hV hacc hF hHne hVc hFc hHc
      (is_field_end_of_white hw) (starts_with_left hline) (by simp; omega)

set_option maxRecDepth 100000 in
/-- Witness for C2 -/
theorem parse_ota_info_well_formed_line_witness :
    parse_ota_info sample_services ⟨(0, 0, 0), none, none⟩ (cbuf sample_line) 78 =
        (ESP_OK, ⟨(2, 0, 0), some "app.bin".toList,
          some "c68d541be2a97037fec58c531ae1a86f36fdc48b5219e0a76e35fcc38a5118df".toList⟩) ∧
      parse_ota_info sample_services ⟨(0, 0, 0), none, none⟩
          (cbuf (sample_line ++ "\n3.0.0|x|y".toList)) 88 =
        (ESP_OK, ⟨(2, 0, 0), some "app.bin".toList,
          some "c68d541be2a97037fec58c531ae1a86f36fdc48b5219e0a76e35fcc38a5118df".toList⟩) :=
  ⟨(parse_ota_info_well_formed_line sample_services ⟨(0, 0, 0), none, none⟩ (cbuf sample_line)
      "2.0.0".toList "app.bin".toList
      "c68d541be2a97037fec58c531ae1a86f36fdc48b5219e0a76e35fcc38a5118df".toList [] '\n'
      (by decide) (by decide) (by decide) (by decide) (by decide) (by decide) (by decide)
      (by decide)).1 (by decide),
   (parse_ota_info_well_formed_line sample_services ⟨(0, 0, 0), none, none⟩
      (cbuf (sample_line ++ "\n3.0.0|x|y".toList))
      "2.0.0".toList "app.bin".toList
      "c68d541be2a97037fec58c531ae1a86f36fdc48b5219e0a76e35fcc38a5118df".toList
      "3.0.0|x|y".toList '\n'
      (by decide) (by decide) (by decide) (by decide) (by decide) (by decide) (by decide)
      (by decide)).2 (by decide)⟩


set_option maxRecDepth 100000 in
/-- C3, as stated, fails: lines with an empty or absent field are accepted with
`ESP_OK` when a later field or a whitespace-separated word takes the place of
the missing one: `1.0.0||abc|x` (empty file name), `|1.0.0|file.bin|abc` (empty
version) and `1.0.0|file.bin` followed by a tab and `abc` (two `|`-separated
fields). -/
theorem parse_ota_info_accepts_line_with_empty_field :
    parse_ota_info sample_services ⟨(0, 0, 0), none, none⟩ (cbuf "1.0.0||abc|x".toList) 12 =
        (ESP_OK, ⟨(1, 0, 0), some "abc".toList, some "x".toList⟩) ∧
      parse_ota_info sample_services ⟨(0, 0, 0), none, none⟩
          (cbuf "|1.0.0|file.bin|abc".toList) 19 =
        (ESP_OK, ⟨(1, 0, 0), some "file.bin".toList, some "abc".toList⟩) ∧
      parse_ota_info sample_services ⟨(0, 0, 0), none, none⟩
          (cbuf "1.0.0|file.bin\tabc".toList) 18 =
        (ESP_OK, ⟨(1, 0, 0), some "file.bin".toList, some "abc".toList⟩) := by
  decide

/-- C3, amended: a non-empty NUL-terminated line made of `|`-separated fields
`fs`, none of which contains `|`, NUL or whitespace, and of nothing but
trailing whitespace `ws` after them, is rejected with
`OAP_OTA_ERR_MALFORMED_INFO` when fewer than three of its fields are
non-empty, and the record is left as it was, so `file` and `sha` stay
unassigned. -/
theorem parse_ota_info_missing_field {V Ctx : Type} (X : Services V Ctx)
    (ota_info : ota_info_t V) (line : Nat → Char) (fs : List (List Char)) (ws : List Char)
    (hfew : (fs.filter (fun f => !f.isEmpty)).length < 3)
    (hc : ∀ f ∈ fs, ∀ c ∈ f, is_field_end c = false)
    (hws : ∀ c ∈ ws, is_white_char c = true)
    (hne : join_fields fs ++ ws ≠ [])
    (hline : starts_with line (join_fields fs ++ ws ++ [NUL])) :
    parse_ota_info X ota_info line ((join_fields fs ++ ws).length : Nat) =
      (OAP_OTA_ERR_MALFORMED_INFO, ota_info) := by
  apply parse_ota_info_few_fields X ota_info line _ (List.length_pos.mpr hne)
  have hm : mem_take line ((join_fields fs ++ ws).length + 1) = join_fields fs ++ ws ++ [NUL] := by
    have := hline
    unfold starts_with at this
    simpa using this
  rw [hm, List.append_assoc]
  have hends : ∀ c ∈ ws ++ [NUL], is_field_end c = true := by
    intro c hcm
    rcases List.mem_append.mp hcm with h | h
    · exact is_field_end_of_white (hws c h)
    · simp at h; subst h; decide
  have h1 := token_ends_join_fields fs (ws ++ [NUL]) hc hends false
  simp at h1
  omega

set_option maxRecDepth 100000 in
/-- Witness for C3, amended: the lines `1.0.0|file.bin`, the same with a
trailing newline, `|file.bin|abc` and `1.0.0||abc`. -/
theorem parse_ota_info_missing_field_witness :
    parse_ota_info sample_services ⟨(7, 7, 7), none, none⟩ (cbuf "1.0.0|file.bin".toList) 14 =
        (OAP_OTA_ERR_MALFORMED_INFO, ⟨(7, 7, 7), none, none⟩) ∧
      parse_ota_info sample_services ⟨(7, 7, 7), none, none⟩ (cbuf "1.0.0|file.bin\n".toList) 15 =
        (OAP_OTA_ERR_MALFORMED_INFO, ⟨(7, 7, 7), none, none⟩) ∧
      parse_ota_info sample_services ⟨(7, 7, 7), none, none⟩ (cbuf "|file.bin|abc".toList) 13 =
        (OAP_OTA_ERR_MALFORMED_INFO, ⟨(7, 7, 7), none, none⟩) ∧
      parse_ota_info sample_services ⟨(7, 7, 7), none, none⟩ (cbuf "1.0.0||abc".toList) 10 =
        (OAP_OTA_ERR_MALFORMED_INFO, ⟨(7, 7, 7), none, none⟩) :=
  ⟨parse_ota_info_missing_field sample_services ⟨(7, 7, 7), none, none⟩
      (cbuf "1.0.0|file.bin".toList) ["1.0.0".toList, "file.bin".toList] []
      (by decide) (by decide) (by decide) (by decide) (by decide),
   parse_ota_info_missing_field sample_services ⟨(7, 7, 7), none, none⟩
      (cbuf "1.0.0|file.bin\n".toList) ["1.0.0".toList, "file.bin".toList] ['\n']
      (by decide) (by decide) (by decide) (by decide) (by decide),
   parse_ota_info_missing_field sample_services ⟨(7, 7, 7), none, none⟩
      (cbuf "|file.bin|abc".toList) [[], "file.bin".toList, "abc".toList] []
      (by decide) (by decide) (by decide) (by decide) (by decide),
   parse_ota_info_missing_field sample_services ⟨(7, 7, 7), none, none⟩
      (cbuf "1.0.0||abc".toList) ["1.0.0".toList, [], "abc".toList] []
      (by decide) (by decide) (by decide) (by decide) (by decide)⟩

/-- C10, as stated, fails: the line `1.0.0|f|abc` is accepted with `ESP_OK`
although its third field is not a digest of 64 lowercase hexadecimal
characters. -/
theorem parse_ota_info_accepts_short_sha :
    parse_ota_info sample_services ⟨(0, 0, 0), none, none⟩ (cbuf "1.0.0|f|abc".toList) 11 =
        (ESP_OK, ⟨(1, 0, 0), some "f".toList, some "abc".toList⟩) ∧
      ¬ is_hex_digest "abc".toList := by
  decide

/-- C10, amended: whenever `parse_ota_info` returns `ESP_OK`, the version of the
record is the one `oap_version_parse` accepted for a non-empty first field,
`file` is a non-empty string and `sha` is a non-empty string. -/
theorem parse_ota_info_ok_record {V Ctx : Type} (X : Services V Ctx)
    (ota_info : ota_info_t V) (line : Nat → Char) (len : Int)
    (h : (parse_ota_info X ota_info line len).1 = ESP_OK) :
    ∃ Vs F H : List Char,
      Vs ≠ [] ∧ X.oap_version_parse Vs ota_info.ver
        = (ESP_OK, (parse_ota_info X ota_info line len).2.ver) ∧
      F ≠ [] ∧ (parse_ota_info X ota_info line len).2.file = some F ∧
      H ≠ [] ∧ (parse_ota_info X ota_info line len).2.sha = some H := by
  by_cases hlen : len ≤ 0
  · simp only [parse_ota_info, hlen, if_true] at h
    exact absurd h (by decide)
  · obtain ⟨n, rfl⟩ : ∃ n : Nat, len = n := ⟨len.toNat, by omega⟩
    have hpos : 0 < n := by omega
    have hinv := scan_loop_fields_nonempty line n (n + 1) 0 scan_init
      (by simp [scan_init])
    rw [parse_ota_info_pos X ota_info line n hpos] at h ⊢
    revert h hinv
    generalize scan_loop line n (n + 1) 0 scan_init = s
    rcases s with ⟨v, f, sh, st⟩
    intro h hinv
    cases v with
    | none => exact absurd h (by decide : ¬ (OAP_OTA_ERR_MALFORMED_INFO = ESP_OK))
    | some v =>
      cases f with
      | none => exact absurd h (by decide : ¬ (OAP_OTA_ERR_MALFORMED_INFO = ESP_OK))
      | some f =>
        cases sh with
        | none => exact absurd h (by decide : ¬ (OAP_OTA_ERR_MALFORMED_INFO = ESP_OK))
        | some sh =>
          simp only [] at h hinv ⊢
          by_cases hp : (X.oap_version_parse v ota_info.ver).1 = ESP_OK
          · refine ⟨v, f, sh, ?_, ?_, ?_, ?_, ?_, ?_⟩
            · intro e; exact hinv.1 (by rw [e])
            · simp [hp]
              exact Prod.ext hp rfl
            · intro e; exact hinv.2.1 (by rw [e])
            · simp [hp]
            · intro e; exact hinv.2.2 (by rw [e])
            · simp [hp]
          · simp only [ne_eq, hp, not_false_eq_true, if_true] at h
            exact absurd h (by decide)

set_option maxRecDepth 100000 in
/-- Witness for C10, amended, at the line `1.0.0|f|abc`. -/
theorem parse_ota_info_ok_record_witness :
    (parse_ota_info sample_services ⟨(0, 0, 0), none, none⟩
        (cbuf "1.0.0|f|abc".toList) 11).1 = ESP_OK ∧
      ∃ Vs F H : List Char,
        Vs ≠ [] ∧ sample_services.oap_version_parse Vs (0, 0, 0)
          = (ESP_OK, (parse_ota_info sample_services ⟨(0, 0, 0), none, none⟩
              (cbuf "1.0.0|f|abc".toList) 11).2.ver) ∧
        F ≠ [] ∧ (parse_ota_info sample_services ⟨(0, 0, 0), none, none⟩
              (cbuf "1.0.0|f|abc".toList) 11).2.file = some F ∧
        H ≠ [] ∧ (parse_ota_info sample_services ⟨(0, 0, 0), none, none⟩
              (cbuf "1.0.0|f|abc".toList) 11).2.sha = some H :=
  ⟨by decide, parse_ota_info_ok_record sample_services ⟨(0, 0, 0), none, none⟩
      (cbuf "1.0.0|f|abc".toList) 11 (by decide)⟩


/-! ## The manifest fetcher -/

theorem get_ota_status_callback_found {V Ctx : Type} (X : Services V Ctx)
    (chunks : List chunk_t) (r : ost_status_result_t V) (h : r.found ≠ 0) :
    chunks.foldl (fun r ch => (get_ota_status_callback X r ch.data ch.len).2) r = r := by
  induction chunks with
  | nil => rfl
  | cons ch chunks ih =>
    rw [List.foldl_cons]
    have : (get_ota_status_callback X r ch.data ch.len).2 = r := by
      simp [get_ota_status_callback, h]
    rw [this, ih]

theorem fetch_last_ota_info_first_chunk {V Ctx : Type} (X : Services V Ctx)
    (ota_info : ota_info_t V) (ch : chunk_t) (rest : List chunk_t) :
    fetch_last_ota_info X ota_info { chunks := ch :: rest, status := 200 } =
      ((parse_ota_info X (zero_info X) ch.data ch.len).1,
        if (parse_ota_info X (zero_info X) ch.data ch.len).1 = ESP_OK then
          (parse_ota_info X (zero_info X) ch.data ch.len).2 else ota_info) := by
  unfold fetch_last_ota_info
  simp only [List.foldl_cons]
  rw [get_ota_status_callback_found X rest _ (by simp [get_ota_status_callback])]
  simp [get_ota_status_callback, zero_info]

set_option maxRecDepth 100000 in
/-- C6, as stated, fails: with status 200 and the chunks `oops` and
`sample_line`, the second chunk is one `parse_ota_info` accepts, yet
`fetch_last_ota_info` returns `OAP_OTA_ERR_MALFORMED_INFO`, the outcome of the
first chunk. -/
theorem fetch_last_ota_info_first_chunk_malformed :
    (parse_ota_info sample_services (zero_info sample_services)
        (chunk_of sample_line).data (chunk_of sample_line).len).1 = ESP_OK ∧
      (fetch_last_ota_info sample_services ⟨(0, 0, 0), none, none⟩
        { chunks := [chunk_of "oops".toList, chunk_of sample_line], status := 200 }).1
        = OAP_OTA_ERR_MALFORMED_INFO := by
  decide

/-- C6, amended: for every response with status 200 whose first chunk is one
`parse_ota_info` accepts, `fetch_last_ota_info` returns `ESP_OK` with the
record parsed from that first chunk, whatever chunks are delivered after it. -/
theorem fetch_last_ota_info_first_chunk_ok {V Ctx : Type} (X : Services V Ctx)
    (ota_info : ota_info_t V) (ch : chunk_t) (rest : List chunk_t)
    (h : (parse_ota_info X (zero_info X) ch.data ch.len).1 = ESP_OK) :
    fetch_last_ota_info X ota_info { chunks := ch :: rest, status := 200 } =
      (ESP_OK, (parse_ota_info X (zero_info X) ch.data ch.len).2) := by
  rw [fetch_last_ota_info_first_chunk, h]
  simp

set_option maxRecDepth 100000 in
/-- Witness for C6, amended: `sample_line` first, then a chunk that is not a
manifest line. -/
theorem fetch_last_ota_info_first_chunk_ok_witness :
    fetch_last_ota_info sample_services ⟨(0, 0, 0), none, none⟩
        { chunks := [chunk_of sample_line, chunk_of "oops".toList], status := 200 } =
      (ESP_OK, (parse_ota_info sample_services (zero_info sample_services)
        (chunk_of sample_line).data (chunk_of sample_line).len).2) :=
  fetch_last_ota_info_first_chunk_ok sample_services ⟨(0, 0, 0), none, none⟩
    (chunk_of sample_line) [chunk_of "oops".toList] (by decide)

/-! ## The downloader -/

theorem download_chunks_sha_context {V Ctx : Type} (X : Services V Ctx)
    (esp_ota_write : Nat → Int) (chunks : List chunk_t) :
    ∀ cb : ota_download_callback_meta Ctx,
      (download_chunks X esp_ota_write cb chunks).sha_context =
        chunks.foldl (fun ctx ch => X.mbedtls_sha256_update ctx (mem_take ch.data ch.len.toNat))
          cb.sha_context := by
  induction chunks with
  | nil => intro cb; rfl
  | cons ch chunks ih =>
    intro cb
    unfold download_chunks at ih ⊢
    rw [List.foldl_cons, List.foldl_cons, ih]
    congr 1
    unfold download_ota_binary_callback
    split <;> rfl

theorem hex_encode_is_hex_digest (hash : List Nat) : is_hex_digest (hex_encode hash) :=
  ⟨hex_encode_upto_length hash 32, hex_encode_upto_lower_hex hash 32⟩

theorem download_ota_binary_eq {V Ctx : Type} (X : Services V Ctx) (ota_config : ota_config_t)
    (ota_info : ota_info_t V) (update_partition : Nat) (resp : response_t)
    (esp_ota_write : Nat → Int) (hfit : path_bytes ota_config ota_info ≤ 200) :
    download_ota_binary X ota_config ota_info update_partition resp esp_ota_write =
      some (if resp.status = 200 then
          if ota_info.sha = some (hex_encode (fed_digest X resp.chunks)) then ESP_OK
          else OAP_OTA_ERR_SHA_MISMATCH
        else OAP_OTA_ERR_REQUEST_FAILED,
        (download_chunks X esp_ota_write
          { sha_context := X.mbedtls_sha256_starts, update_partition := update_partition,
            writes := [] } resp.chunks).writes) := by
  unfold download_ota_binary
  rw [if_pos hfit]
  simp only [download_chunks_sha_context, cstr_sha_to_hex]
  unfold fed_digest
  by_cases hs : resp.status = 200
  · simp only [hs, if_true]
    by_cases he : ota_info.sha = some (hex_encode (X.mbedtls_sha256_finish
        (resp.chunks.foldl (fun ctx ch => X.mbedtls_sha256_update ctx (mem_take ch.data ch.len.toNat))
          X.mbedtls_sha256_starts)))
    · simp [he]
    · have he2 : ¬ (some (hex_encode (X.mbedtls_sha256_finish
        (resp.chunks.foldl (fun ctx ch => X.mbedtls_sha256_update ctx (mem_take ch.data ch.len.toNat))
          X.mbedtls_sha256_starts))) = ota_info.sha) := fun e => he e.symm
      simp [he, he2]
  · simp [hs]

/-- A request path that does not fit `path[200]` leaves `download_ota_binary`
without a result, whatever the transport would have answered. -/
theorem download_ota_binary_overflow {V Ctx : Type} (X : Services V Ctx)
    (ota_config : ota_config_t) (ota_info : ota_info_t V) (update_partition : Nat)
    (resp : response_t) (esp_ota_write : Nat → Int)
    (h : 200 < path_bytes ota_config ota_info) :
    download_ota_binary X ota_config ota_info update_partition resp esp_ota_write = none := by
  unfold download_ota_binary
  rw [if_neg (by omega)]

/-- C4: when the request path `path/file` fits the 200 bytes of `path`,
`download_ota_binary` returns `OAP_OTA_ERR_REQUEST_FAILED` exactly when the
transport status is not 200; with status 200 it returns `ESP_OK` exactly when
the record's `sha` is, character for character, the 64-character lowercase
hexadecimal encoding of the digest of all chunks in arrival order, and
`OAP_OTA_ERR_SHA_MISMATCH` otherwise, in particular for every expected digest
that differs from the encoding (for instance only in letter case). -/
theorem download_ota_binary_result {V Ctx : Type} (X : Services V Ctx)
    (ota_config : ota_config_t) (ota_info : ota_info_t V) (update_partition : Nat)
    (resp : response_t) (esp_ota_write : Nat → Int)
    (hfit : path_bytes ota_config ota_info ≤ 200) :
    ((download_ota_binary X ota_config ota_info update_partition resp esp_ota_write).map Prod.fst
        = some OAP_OTA_ERR_REQUEST_FAILED ↔ resp.status ≠ 200) ∧
    is_hex_digest (hex_encode (fed_digest X resp.chunks)) ∧
    (resp.status = 200 →
      ((download_ota_binary X ota_config ota_info update_partition resp esp_ota_write).map Prod.fst
          = some ESP_OK ↔
        ota_info.sha = some (hex_encode (fed_digest X resp.chunks))) ∧
      ((download_ota_binary X ota_config ota_info update_partition resp esp_ota_write).map Prod.fst
          ≠ some ESP_OK →
        (download_ota_binary X ota_config ota_info update_partition resp esp_ota_write).map Prod.fst
          = some OAP_OTA_ERR_SHA_MISMATCH) ∧
      (∀ s : List Char, ota_info.sha = some s → s ≠ hex_encode (fed_digest X resp.chunks) →
        (download_ota_binary X ota_config ota_info update_partition resp esp_ota_write).map Prod.fst
          = some OAP_OTA_ERR_SHA_MISMATCH)) := by
  rw [download_ota_binary_eq X ota_config ota_info update_partition resp esp_ota_write hfit]
  simp only [Option.map_some', Option.some.injEq]
  refine ⟨?_, hex_encode_is_hex_digest _, ?_⟩
  · by_cases hs : resp.status = 200
    · simp only [hs, if_true, ne_eq, not_true_eq_false, iff_false]
      split <;> decide
    · simp [hs]
  · intro hs
    simp only [hs, if_true]
    refine ⟨?_, ?_, ?_⟩
    · by_cases he : ota_info.sha = some (hex_encode (fed_digest X resp.chunks))
      · simp [he]
      · simp only [he, if_false, iff_false]
        decide
    · intro h
      by_cases he : ota_info.sha = some (hex_encode (fed_digest X resp.chunks))
      · simp [he] at h
      · simp [he]
    · intro s hsha hne
      have he : ¬ (ota_info.sha = some (hex_encode (fed_digest X resp.chunks))) := by
        rw [hsha]
        intro e
        exact hne (Option.some.inj e)
      simp [he]

set_option maxRecDepth 100000 in
/-- Witness for C4: the payload `0123456789` against the matching digest, against
the same digest in upper case, and a response with status 404. -/
theorem download_ota_binary_result_witness :
    (download_ota_binary sample_services sample_config
        ⟨(2, 0, 0), some "app.bin".toList,
          some "c68d541be2a97037fec58c531ae1a86f36fdc48b5219e0a76e35fcc38a5118df".toList⟩ 1
        { chunks := [chunk_of "01234".toList, chunk_of "56789".toList], status := 200 }
        (fun _ => 0)).map Prod.fst = some ESP_OK ∧
    (download_ota_binary sample_services sample_config
        ⟨(2, 0, 0), some "app.bin".toList,
          some "C68D541BE2A97037FEC58C531AE1A86F36FDC48B5219E0A76E35FCC38A5118DF".toList⟩ 1
        { chunks := [chunk_of "01234".toList, chunk_of "56789".toList], status := 200 }
        (fun _ => 0)).map Prod.fst = some OAP_OTA_ERR_SHA_MISMATCH ∧
    (download_ota_binary sample_services sample_config
        ⟨(2, 0, 0), some "app.bin".toList,
          some "c68d541be2a97037fec58c531ae1a86f36fdc48b5219e0a76e35fcc38a5118df".toList⟩ 1
        { chunks := [chunk_of "01234".toList, chunk_of "56789".toList], status := 404 }
        (fun _ => 0)).map Prod.fst = some OAP_OTA_ERR_REQUEST_FAILED :=
  ⟨((download_ota_binary_result sample_services sample_config _ 1
        { chunks := [chunk_of "01234".toList, chunk_of "56789".toList], status := 200 }
        (fun _ => 0) (by decide)).2.2 rfl).1.mpr (by decide),
   ((download_ota_binary_result sample_services sample_config _ 1
        { chunks := [chunk_of "01234".toList, chunk_of "56789".toList], status := 200 }
        (fun _ => 0) (by decide)).2.2 rfl).2.2 _ rfl (by decide),
   (download_ota_binary_result sample_services sample_config _ 1
        { chunks := [chunk_of "01234".toList, chunk_of "56789".toList], status := 404 }
        (fun _ => 0) (by decide)).1.mpr (by decide)⟩

/-! ## The version gate -/

theorem is_ota_update_available_eq {V Ctx : Type} (X : Services V Ctx)
    (ota_config : ota_config_t) (ota_info : ota_info_t V) (resp : response_t) :
    (is_ota_update_available X ota_config ota_info resp).1 =
      if (fetch_last_ota_info X ota_info resp).1 = ESP_OK then
        if X.oap_version_num (fetch_last_ota_info X ota_info resp).2.ver ≤ ota_config.min_version
        then OAP_OTA_ERR_NO_UPDATES else ESP_OK
      else (fetch_last_ota_info X ota_info resp).1 := by
  unfold is_ota_update_available
  by_cases h : (fetch_last_ota_info X ota_info resp).1 = ESP_OK
  · by_cases hv : X.oap_version_num (fetch_last_ota_info X ota_info resp).2.ver
        ≤ ota_config.min_version
    · simp [h, hv]
    · simp [h, hv]
  · simp [h]

/-- C5: `is_ota_update_available` returns the error of the manifest fetch
unchanged when the fetch fails; when the fetch succeeds it returns
`OAP_OTA_ERR_NO_UPDATES` exactly when the numeric form of the remote version is
less than or equal to `min_version`, and `ESP_OK` exactly when it is greater. -/
theorem is_ota_update_available_result {V Ctx : Type} (X : Services V Ctx)
    (ota_config : ota_config_t) (ota_info : ota_info_t V) (resp : response_t) :
    ((fetch_last_ota_info X ota_info resp).1 ≠ ESP_OK →
      (is_ota_update_available X ota_config ota_info resp).1
        = (fetch_last_ota_info X ota_info resp).1) ∧
    ((fetch_last_ota_info X ota_info resp).1 = ESP_OK →
      ((is_ota_update_available X ota_config ota_info resp).1 = OAP_OTA_ERR_NO_UPDATES ↔
        X.oap_version_num (fetch_last_ota_info X ota_info resp).2.ver ≤ ota_config.min_version) ∧
      ((is_ota_update_available X ota_config ota_info resp).1 = ESP_OK ↔
        ota_config.min_version < X.oap_version_num (fetch_last_ota_info X ota_info resp).2.ver)) := by
  rw [is_ota_update_available_eq]
  constructor
  · intro h
    rw [if_neg h]
  · intro h
    rw [if_pos h]
    by_cases hv : X.oap_version_num (fetch_last_ota_info X ota_info resp).2.ver
        ≤ ota_config.min_version
    · rw [if_pos hv]
      exact ⟨⟨fun _ => hv, fun _ => rfl⟩,
        ⟨fun h1 => absurd h1 (by decide), fun h1 => absurd hv (by omega)⟩⟩
    · rw [if_neg hv]
      exact ⟨⟨fun h1 => absurd h1 (by decide), fun h1 => absurd h1 hv⟩,
        ⟨fun _ => by omega, fun _ => rfl⟩⟩


/-! ## The update loop -/

theorem download_chunks_writes {V Ctx : Type} (X : Services V Ctx)
    (esp_ota_write : Nat → Int) (chunks : List chunk_t) :
    ∀ cb : ota_download_callback_meta Ctx,
      (∀ e ∈ cb.writes, ∃ h d, e = ota_event.esp_ota_write h d) →
      ∀ e ∈ (download_chunks X esp_ota_write cb chunks).writes,
        ∃ h d, e = ota_event.esp_ota_write h d := by
  induction chunks with
  | nil => intro cb h; exact h
  | cons ch chunks ih =>
    intro cb h
    unfold download_chunks
    rw [List.foldl_cons]
    apply ih
    unfold download_ota_binary_callback
    split
    · intro e he
      simp only [List.mem_append, List.mem_singleton] at he
      rcases he with he | he
      · exact h e he
      · exact ⟨_, _, he⟩
    · exact h

theorem download_ota_binary_events {V Ctx : Type} (X : Services V Ctx)
    (ota_config : ota_config_t) (ota_info : ota_info_t V) (update_partition : Nat)
    (resp : response_t) (esp_ota_write : Nat → Int) (d : esp_err_t × List ota_event)
    (hd : download_ota_binary X ota_config ota_info update_partition resp esp_ota_write
      = some d) :
    ∀ e ∈ d.2, ∃ h w, e = ota_event.esp_ota_write h w := by
  have h := download_chunks_writes X esp_ota_write resp.chunks
    { sha_context := X.mbedtls_sha256_starts, update_partition := update_partition, writes := [] }
    (by simp)
  by_cases hfit : path_bytes ota_config ota_info ≤ 200
  · rw [download_ota_binary_eq X ota_config ota_info update_partition resp esp_ota_write hfit]
      at hd
    have e := Option.some.inj hd
    rw [← e]
    exact h
  · rw [download_ota_binary_overflow X ota_config ota_info update_partition resp esp_ota_write
      (by omega)] at hd
    cases hd

set_option maxRecDepth 100000 in
/-- C1 does not hold of the code: in scenario B (the image body `0123456780`
instead of `0123456789`) `download_ota_binary` returns
`OAP_OTA_ERR_SHA_MISMATCH`, and the cycle still calls
`esp_ota_set_boot_partition` and `oap_reboot` and returns `ESP_OK`. -/
theorem ota_cycle_commits_after_sha_mismatch :
    (ota_cycle sample_services sample_config ⟨(0, 0, 0), none, none⟩
        (sample_env "0123456780".toList)).download = some OAP_OTA_ERR_SHA_MISMATCH ∧
      (ota_cycle sample_services sample_config ⟨(0, 0, 0), none, none⟩
        (sample_env "0123456780".toList)).events =
        [ota_event.wifi_connected_wait_for 30000,
         ota_event.req_perform "/fw/index.txt".toList,
         ota_event.esp_ota_begin (some 2),
         ota_event.req_perform "/fw/app.bin".toList,
         ota_event.esp_ota_write 5 "0123456780".toList,
         ota_event.esp_ota_end 5,
         ota_event.esp_ota_set_boot_partition (some 2),
         ota_event.oap_reboot] ∧
      (check_ota_task sample_services sample_config none ⟨(0, 0, 0), none, none⟩
        [sample_env "0123456780".toList]).2.2 = some ESP_OK := by
  decide

/-- C7: a cycle in which the connectivity wait fails, the manifest fetch fails
or the gate reports no update (remote version at most `min_version`) makes no
storage call and no download, none of `esp_ota_begin`, `esp_ota_write`,
`esp_ota_end`, `esp_ota_set_boot_partition`, `oap_reboot` and no image
request, and ends at `go_sleep`, where the loop sleeps when `interval > 0`. -/
theorem ota_cycle_skipped {V Ctx : Type} (X : Services V Ctx) (ota_config : ota_config_t)
    (ota_info : ota_info_t V) (env : cycle_env)
    (h : env.wifi_connected_wait_for ≠ ESP_OK ∨
      (fetch_last_ota_info X ota_info env.index_response).1 ≠ ESP_OK ∨
      ((fetch_last_ota_info X ota_info env.index_response).1 = ESP_OK ∧
        X.oap_version_num (fetch_last_ota_info X ota_info env.index_response).2.ver
          ≤ ota_config.min_version)) :
    (ota_cycle X ota_config ota_info env).exit = cycle_exit.go_sleep ∧
    (ota_cycle X ota_config ota_info env).download = none ∧
    (∀ e ∈ (ota_cycle X ota_config ota_info env).events, is_storage_event e = false) ∧
    (∀ e ∈ (ota_cycle X ota_config ota_info env).events,
      e = ota_event.wifi_connected_wait_for 30000 ∨
      e = ota_event.req_perform (ota_config.path ++ "/index.txt".toList)) ∧
    (0 < ota_config.interval → ∀ envs : List cycle_env,
      (ota_loop X ota_config (env :: envs) ota_info).1 =
        (ota_cycle X ota_config ota_info env).events ++
          ota_event.delay ota_config.interval ::
            (ota_loop X ota_config envs (ota_cycle X ota_config ota_info env).ota_info).1) := by
  have hcases : env.wifi_connected_wait_for ≠ ESP_OK ∨
      (env.wifi_connected_wait_for = ESP_OK ∧
        (is_ota_update_available X ota_config ota_info env.index_response).1 ≠ ESP_OK) := by
    by_cases hw : env.wifi_connected_wait_for = ESP_OK
    · right
      refine ⟨hw, ?_⟩
      rw [is_ota_update_available_eq]
      rcases h with h | h | h
      · exact absurd hw h
      · rw [if_neg h]; exact h
      · rw [if_pos h.1, if_pos h.2]; decide
    · left; exact hw
  have hexit : (ota_cycle X ota_config ota_info env).exit = cycle_exit.go_sleep := by
    rcases hcases with hw | ⟨hw, ha⟩
    · simp [ota_cycle, hw]
    · simp [ota_cycle, hw, ha]
  refine ⟨hexit, ?_, ?_, ?_, ?_⟩
  · rcases hcases with hw | ⟨hw, ha⟩
    · simp [ota_cycle, hw]
    · simp [ota_cycle, hw, ha]
  · rcases hcases with hw | ⟨hw, ha⟩
    · simp [ota_cycle, hw, is_storage_event]
    · simp [ota_cycle, hw, ha, is_storage_event]
  · rcases hcases with hw | ⟨hw, ha⟩
    · simp [ota_cycle, hw]
    · simp [ota_cycle, hw, ha]
  · intro hint envs
    rw [ota_loop]
    simp only [hexit]
    rw [if_neg (by omega)]

/-- Witness for C7: a manifest request answered with status 404. -/
theorem ota_cycle_skipped_witness :
    (fetch_last_ota_info sample_services ⟨(0, 0, 0), none, none⟩
        { chunks := [], status := 404 }).1 = OAP_OTA_ERR_REQUEST_FAILED ∧
    (ota_cycle sample_services sample_config ⟨(0, 0, 0), none, none⟩
      { sample_env [] with index_response := { chunks := [], status := 404 } }).exit
        = cycle_exit.go_sleep ∧
    ∀ e ∈ (ota_cycle sample_services sample_config ⟨(0, 0, 0), none, none⟩
      { sample_env [] with index_response := { chunks := [], status := 404 } }).events,
      is_storage_event e = false :=
  ⟨by decide,
   (ota_cycle_skipped sample_services sample_config ⟨(0, 0, 0), none, none⟩
      { sample_env [] with index_response := { chunks := [], status := 404 } }
      (Or.inr (Or.inl (by decide)))).1,
   (ota_cycle_skipped sample_services sample_config ⟨(0, 0, 0), none, none⟩
      { sample_env [] with index_response := { chunks := [], status := 404 } }
      (Or.inr (Or.inl (by decide)))).2.2.1⟩

/-- C8: in a cycle in which connectivity, manifest fetch, version gate,
`esp_ota_begin`, the download with its digest check and `esp_ota_end` all
succeed: with `commit_and_reboot` set, `esp_ota_set_boot_partition` is called
on the configured update partition and, when it succeeds, `oap_reboot` is
triggered and the task returns `ESP_OK`; with `commit_and_reboot` clear, neither
is called and the cycle ends at `go_sleep`. -/
theorem ota_cycle_success {V Ctx : Type} (X : Services V Ctx) (ota_config : ota_config_t)
    (ota_info : ota_info_t V) (env : cycle_env)
    (hw : env.wifi_connected_wait_for = ESP_OK)
    (ha : (is_ota_update_available X ota_config ota_info env.index_response).1 = ESP_OK)
    (hb : env.esp_ota_begin.1 = ESP_OK)
    (hd : (download_ota_binary X ota_config
      (is_ota_update_available X ota_config ota_info env.index_response).2
      env.esp_ota_begin.2 env.binary_response env.esp_ota_write).map Prod.fst = some ESP_OK)
    (he : env.esp_ota_end = ESP_OK) :
    (ota_cycle X ota_config ota_info env).download = some ESP_OK ∧
    (ota_config.commit_and_reboot ≠ 0 →
      ota_event.esp_ota_set_boot_partition ota_config.update_partition
        ∈ (ota_cycle X ota_config ota_info env).events ∧
      (env.esp_ota_set_boot_partition = ESP_OK →
        ota_event.oap_reboot ∈ (ota_cycle X ota_config ota_info env).events ∧
        (ota_cycle X ota_config ota_info env).exit = cycle_exit.returned ∧
        ∀ envs : List cycle_env,
          (ota_loop X ota_config (env :: envs) ota_info).2 = some ESP_OK)) ∧
    (ota_config.commit_and_reboot = 0 →
      (∀ p, ota_event.esp_ota_set_boot_partition p
        ∉ (ota_cycle X ota_config ota_info env).events) ∧
      ota_event.oap_reboot ∉ (ota_cycle X ota_config ota_info env).events ∧
      (ota_cycle X ota_config ota_info env).exit = cycle_exit.go_sleep) := by
  cases hdl : download_ota_binary X ota_config
      (is_ota_update_available X ota_config ota_info env.index_response).2
      env.esp_ota_begin.2 env.binary_response env.esp_ota_write with
  | none => simp [hdl] at hd
  | some d =>
    have hd1 : d.1 = ESP_OK := by simpa [hdl] using hd
    have hwr : ∀ e ∈ d.2, ∃ h w, e = ota_event.esp_ota_write h w :=
      download_ota_binary_events X _ _ _ _ _ d hdl
    refine ⟨?_, ?_, ?_⟩
    · by_cases hc : ota_config.commit_and_reboot = 0
      · simp [ota_cycle, hw, ha, hb, he, hc, hdl, hd1]
      · by_cases hs : env.esp_ota_set_boot_partition = ESP_OK
        · simp [ota_cycle, hw, ha, hb, he, hc, hs, hdl, hd1]
        · simp [ota_cycle, hw, ha, hb, he, hc, hs, hdl, hd1]
    · intro hc
      constructor
      · by_cases hs : env.esp_ota_set_boot_partition = ESP_OK
        · simp [ota_cycle, hw, ha, hb, he, hc, hs, hdl]
        · simp [ota_cycle, hw, ha, hb, he, hc, hs, hdl]
      · intro hs
        have hx : (ota_cycle X ota_config ota_info env).exit = cycle_exit.returned := by
          simp [ota_cycle, hw, ha, hb, he, hc, hs, hdl]
        refine ⟨by simp [ota_cycle, hw, ha, hb, he, hc, hs, hdl], hx, ?_⟩
        intro envs
        rw [ota_loop]
        simp only [hx]
    · intro hc
      refine ⟨?_, ?_, ?_⟩
      · intro p hp
        simp [ota_cycle, hw, ha, hb, he, hc, hdl] at hp
        obtain ⟨h, w, e⟩ := hwr _ hp
        cases e
      · intro hp
        simp [ota_cycle, hw, ha, hb, he, hc, hdl] at hp
        obtain ⟨h, w, e⟩ := hwr _ hp
        cases e
      · simp [ota_cycle, hw, ha, hb, he, hc, hdl]

set_option maxRecDepth 100000 in
/-- Witness for C8: scenario A of the spec, with and without auto-commit. -/
theorem ota_cycle_success_witness :
    (ota_event.esp_ota_set_boot_partition (some 2)
        ∈ (ota_cycle sample_services sample_config ⟨(0, 0, 0), none, none⟩
            (sample_env "0123456789".toList)).events ∧
      ota_event.oap_reboot
        ∈ (ota_cycle sample_services sample_config ⟨(0, 0, 0), none, none⟩
            (sample_env "0123456789".toList)).events ∧
      (ota_loop sample_services sample_config [sample_env "0123456789".toList]
        ⟨(0, 0, 0), none, none⟩).2 = some ESP_OK) ∧
    (ota_event.oap_reboot
        ∉ (ota_cycle sample_services { sample_config with commit_and_reboot := 0 }
            ⟨(0, 0, 0), none, none⟩ (sample_env "0123456789".toList)).events ∧
      (ota_cycle sample_services { sample_config with commit_and_reboot := 0 }
        ⟨(0, 0, 0), none, none⟩ (sample_env "0123456789".toList)).exit = cycle_exit.go_sleep) :=
  ⟨⟨((ota_cycle_success sample_services sample_config ⟨(0, 0, 0), none, none⟩
        (sample_env "0123456789".toList) (by decide) (by decide) (by decide) (by decide)
        (by decide)).2.1 (by decide)).1,
    (((ota_cycle_success sample_services sample_config ⟨(0, 0, 0), none, none⟩
        (sample_env "0123456789".toList) (by decide) (by decide) (by decide) (by decide)
        (by decide)).2.1 (by decide)).2 (by decide)).1,
    (((ota_cycle_success sample_services sample_config ⟨(0, 0, 0), none, none⟩
        (sample_env "0123456789".toList) (by decide) (by decide) (by decide) (by decide)
        (by decide)).2.1 (by decide)).2 (by decide)).2.2 []⟩,
   ⟨((ota_cycle_success sample_services { sample_config with commit_and_reboot := 0 }
        ⟨(0, 0, 0), none, none⟩ (sample_env "0123456789".toList) (by decide) (by decide)
        (by decide) (by decide) (by decide)).2.2 (by decide)).2.1,
    ((ota_cycle_success sample_services { sample_config with commit_and_reboot := 0 }
        ⟨(0, 0, 0), none, none⟩ (sample_env "0123456789".toList) (by decide) (by decide)
        (by decide) (by decide) (by decide)).2.2 (by decide)).2.2⟩⟩

set_option maxRecDepth 100000 in
/-- Witness for C5: the manifest of `sample_line` (version 2.0.0) against the
minimum versions 1.0.0, 2.0.0 and a failed fetch. -/
theorem is_ota_update_available_result_witness :
    (is_ota_update_available sample_services sample_config ⟨(0, 0, 0), none, none⟩
        { chunks := [chunk_of sample_line], status := 200 }).1 = ESP_OK ∧
    (is_ota_update_available sample_services { sample_config with min_version := 20000 }
        ⟨(0, 0, 0), none, none⟩
        { chunks := [chunk_of sample_line], status := 200 }).1 = OAP_OTA_ERR_NO_UPDATES ∧
    (is_ota_update_available sample_services sample_config ⟨(0, 0, 0), none, none⟩
        { chunks := [chunk_of sample_line], status := 404 }).1
      = (fetch_last_ota_info sample_services ⟨(0, 0, 0), none, none⟩
        { chunks := [chunk_of sample_line], status := 404 }).1 :=
  ⟨((is_ota_update_available_result sample_services sample_config ⟨(0, 0, 0), none, none⟩
      { chunks := [chunk_of sample_line], status := 200 }).2 (by decide)).2.mpr (by decide),
   ((is_ota_update_available_result sample_services { sample_config with min_version := 20000 }
      ⟨(0, 0, 0), none, none⟩
      { chunks := [chunk_of sample_line], status := 200 }).2 (by decide)).1.mpr (by decide),
   (is_ota_update_available_result sample_services sample_config ⟨(0, 0, 0), none, none⟩
      { chunks := [chunk_of sample_line], status := 404 }).1 (by decide)⟩

/-! ### The update partition -/

theorem ota_cycle_events_on {V Ctx : Type} (X : Services V Ctx) (ota_config : ota_config_t)
    (ota_info : ota_info_t V) (env : cycle_env) :
    ∀ e ∈ (ota_cycle X ota_config ota_info env).events,
      cycle_event_on ota_config.update_partition e = true := by
  cases hdl : download_ota_binary X ota_config
      (is_ota_update_available X ota_config ota_info env.index_response).2
      env.esp_ota_begin.2 env.binary_response env.esp_ota_write with
  | none =>
    unfold ota_cycle
    simp only [hdl]
    split_ifs <;> simp [cycle_event_on, or_imp, forall_and]
  | some d =>
    have hwr : ∀ e ∈ d.2, cycle_event_on ota_config.update_partition e = true := by
      intro e he
      obtain ⟨h, w, rfl⟩ := download_ota_binary_events X _ _ _ _ _ d hdl e he
      rfl
    unfold ota_cycle
    simp only [hdl]
    split_ifs <;> simp [cycle_event_on, or_imp, forall_and] <;> exact hwr

theorem ota_loop_events_on {V Ctx : Type} (X : Services V Ctx) (ota_config : ota_config_t)
    (envs : List cycle_env) :
    ∀ (ota_info : ota_info_t V), ∀ e ∈ (ota_loop X ota_config envs ota_info).1,
      cycle_event_on ota_config.update_partition e = true := by
  induction envs with
  | nil => intro ota_info e he; simp [ota_loop] at he
  | cons env envs ih =>
    intro ota_info e he
    rw [ota_loop] at he
    split at he
    · exact ota_cycle_events_on X ota_config ota_info env e he
    · exact ota_cycle_events_on X ota_config ota_info env e he
    · split at he
      · exact ota_cycle_events_on X ota_config ota_info env e he
      · simp only [List.mem_append, List.mem_cons] at he
        rcases he with he | he | he
        · exact ota_cycle_events_on X ota_config ota_info env e he
        · subst he; rfl
        · exact ih _ e he

theorem check_ota_task_pinned {V Ctx : Type} (X : Services V Ctx)
    (ota_config : ota_config_t) (next_update_partition : Option Nat)
    (ota_info : ota_info_t V) (envs : List cycle_env) (p : Nat)
    (h : ota_config.update_partition = some p) :
    check_ota_task X ota_config next_update_partition ota_info envs =
      (ota_config,
        ota_event.esp_ota_get_running_partition :: (ota_loop X ota_config envs ota_info).1,
        (ota_loop X ota_config envs ota_info).2) := by
  simp [check_ota_task, h]

theorem check_ota_task_resolved {V Ctx : Type} (X : Services V Ctx)
    (ota_config : ota_config_t) (next_update_partition : Option Nat)
    (ota_info : ota_info_t V) (envs : List cycle_env) (p : Nat)
    (h : ota_config.update_partition = none) (hn : next_update_partition = some p) :
    check_ota_task X ota_config next_update_partition ota_info envs =
      ({ ota_config with update_partition := some p },
        ota_event.esp_ota_get_running_partition :: ota_event.esp_ota_get_next_update_partition ::
          (ota_loop X { ota_config with update_partition := some p } envs ota_info).1,
        (ota_loop X { ota_config with update_partition := some p } envs ota_info).2) := by
  simp [check_ota_task, h, hn]

/-- C9: with no pinned update partition and none resolved by
`esp_ota_get_next_update_partition`, `check_ota_task` returns `ESP_FAIL` after
the two partition look-ups alone, whatever the interval and whatever the
collaborators would have answered: no connectivity wait, no request, no storage
call, no sleep. With a partition `p` pinned or resolved, the configuration
holds `p` afterwards, every `esp_ota_begin` and `esp_ota_set_boot_partition`
of every cycle is made on `p`, and the partition is looked up once when it was
not pinned and never when it was. -/
theorem check_ota_task_partition {V Ctx : Type} (X : Services V Ctx)
    (ota_config : ota_config_t) (next_update_partition : Option Nat)
    (ota_info : ota_info_t V) (envs : List cycle_env) :
    (ota_config.update_partition = none → next_update_partition = none →
      check_ota_task X ota_config next_update_partition ota_info envs =
        (ota_config, [ota_event.esp_ota_get_running_partition,
          ota_event.esp_ota_get_next_update_partition], some ESP_FAIL)) ∧
    (∀ p : Nat, (ota_config.update_partition = some p ∨
        (ota_config.update_partition = none ∧ next_update_partition = some p)) →
      (check_ota_task X ota_config next_update_partition ota_info envs).1.update_partition
        = some p ∧
      (∀ e ∈ (check_ota_task X ota_config next_update_partition ota_info envs).2.1,
        ∀ q, (e = ota_event.esp_ota_begin q ∨ e = ota_event.esp_ota_set_boot_partition q) →
          q = some p) ∧
      (check_ota_task X ota_config next_update_partition ota_info envs).2.1.count
          ota_event.esp_ota_get_next_update_partition
        = if ota_config.update_partition = none then 1 else 0) := by
  constructor
  · intro h1 h2
    subst h2
    rcases ota_config with ⟨host, path, mv, cr, up, iv⟩
    simp only at h1
    subst h1
    simp [check_ota_task]
  · intro p hp
    have key : ∀ cfg : ota_config_t, cfg.update_partition = some p →
        ∀ e ∈ (ota_loop X cfg envs ota_info).1,
          (∀ q, (e = ota_event.esp_ota_begin q ∨ e = ota_event.esp_ota_set_boot_partition q) →
            q = some p) ∧ e ≠ ota_event.esp_ota_get_next_update_partition := by
      intro cfg hcfg e he
      have h := ota_loop_events_on X cfg envs ota_info e he
      rw [hcfg] at h
      constructor
      · intro q hq
        rcases hq with rfl | rfl <;> simpa [cycle_event_on] using h
      · rintro rfl
        simp [cycle_event_on] at h
    rcases hp with hp | ⟨hp, hn⟩
    · have k := key ota_config hp
      rw [check_ota_task_pinned X ota_config next_update_partition ota_info envs p hp]
      refine ⟨hp, ?_, ?_⟩
      · intro e he q hq
        rcases List.mem_cons.mp he with rfl | he
        · rcases hq with hq | hq <;> cases hq
        · exact (k e he).1 q hq
      · rw [if_neg (by simp [hp]), List.count_cons_of_ne (by decide), List.count_eq_zero]
        intro hmem
        exact (k _ hmem).2 rfl
    · have k := key { ota_config with update_partition := some p } rfl
      rw [check_ota_task_resolved X ota_config next_update_partition ota_info envs p hp hn]
      refine ⟨rfl, ?_, ?_⟩
      · intro e he q hq
        rcases List.mem_cons.mp he with rfl | he
        · rcases hq with hq | hq <;> cases hq
        · rcases List.mem_cons.mp he with rfl | he
          · rcases hq with hq | hq <;> cases hq
          · exact (k e he).1 q hq
      · rw [if_pos hp, List.count_cons_of_ne (by decide), List.count_cons_self,
          List.count_eq_zero.mpr]
        intro hmem
        exact (k _ hmem).2 rfl

/-- Witness for C9: no partition pinned and none resolved, with a positive
interval; and the partition 2 pinned. -/
theorem check_ota_task_partition_witness :
    check_ota_task sample_services
        { sample_config with update_partition := none, interval := 3600000 } none
        ⟨(0, 0, 0), none, none⟩ [sample_env "0123456789".toList] =
      ({ sample_config with update_partition := none, interval := 3600000 },
        [ota_event.esp_ota_get_running_partition, ota_event.esp_ota_get_next_update_partition],
        some ESP_FAIL) ∧
    (check_ota_task sample_services sample_config none ⟨(0, 0, 0), none, none⟩
        [sample_env "0123456789".toList]).1.update_partition = some 2 :=
  ⟨(check_ota_task_partition sample_services
      { sample_config with update_partition := none, interval := 3600000 } none
      ⟨(0, 0, 0), none, none⟩ [sample_env "0123456789".toList]).1 rfl rfl,
   ((check_ota_task_partition sample_services sample_config none ⟨(0, 0, 0), none, none⟩
      [sample_env "0123456789".toList]).2 2 (Or.inl rfl)).1⟩


/-! ## The manifest fetcher, continued -/

theorem fetch_last_ota_info_not_200 {V Ctx : Type} (X : Services V Ctx)
    (ota_info : ota_info_t V) (resp : response_t) (h : resp.status ≠ 200) :
    fetch_last_ota_info X ota_info resp = (OAP_OTA_ERR_REQUEST_FAILED, ota_info) := by
  unfold fetch_last_ota_info
  simp [h]

theorem fetch_last_ota_info_no_chunk {V Ctx : Type} (X : Services V Ctx)
    (ota_info : ota_info_t V) :
    fetch_last_ota_info X ota_info { chunks := [], status := 200 } =
      (OAP_OTA_ERR_EMPTY_RESPONSE, ota_info) := by
  simp [fetch_last_ota_info]

/-- C11: `fetch_last_ota_info` writes the caller's `ota_info` exactly when it
returns `ESP_OK`: whenever it returns an error (status other than 200, no
chunk, or any failure of the parser, an invalid version included) the caller's
record is what it was before the call, and when it returns `ESP_OK` the record
is the one parsed from the first chunk. -/
theorem fetch_last_ota_info_writes_iff_ok {V Ctx : Type} (X : Services V Ctx)
    (ota_info : ota_info_t V) (resp : response_t) :
    ((fetch_last_ota_info X ota_info resp).1 ≠ ESP_OK →
      (fetch_last_ota_info X ota_info resp).2 = ota_info) ∧
    ((fetch_last_ota_info X ota_info resp).1 = ESP_OK →
      ∃ ch rest, resp.chunks = ch :: rest ∧
        (fetch_last_ota_info X ota_info resp).2 =
          (parse_ota_info X (zero_info X) ch.data ch.len).2) := by
  rcases resp with ⟨chunks, status⟩
  by_cases hs : status = 200
  · subst hs
    cases chunks with
    | nil =>
      rw [fetch_last_ota_info_no_chunk]
      exact ⟨fun _ => rfl,
        fun h => absurd h (by decide : ¬ (OAP_OTA_ERR_EMPTY_RESPONSE = ESP_OK))⟩
    | cons ch rest =>
      rw [fetch_last_ota_info_first_chunk]
      constructor
      · intro h
        simp only [] at h ⊢
        rw [if_neg h]
      · intro h
        simp only [] at h ⊢
        exact ⟨ch, rest, rfl, by rw [if_pos h]⟩
  · rw [fetch_last_ota_info_not_200 X ota_info _ hs]
    exact ⟨fun _ => rfl,
      fun h => absurd h (by decide : ¬ (OAP_OTA_ERR_REQUEST_FAILED = ESP_OK))⟩

set_option maxRecDepth 100000 in
/-- Witness for C11: a manifest whose version field is not a version, a status
404, an empty response, and the well-formed `sample_line`. -/
theorem fetch_last_ota_info_writes_iff_ok_witness :
    (fetch_last_ota_info sample_services ⟨(7, 7, 7), some "old".toList, none⟩
        { chunks := [chunk_of "x.y|f|abc".toList], status := 200 }).2
        = ⟨(7, 7, 7), some "old".toList, none⟩ ∧
    (fetch_last_ota_info sample_services ⟨(7, 7, 7), some "old".toList, none⟩
        { chunks := [chunk_of sample_line], status := 404 }).2
        = ⟨(7, 7, 7), some "old".toList, none⟩ ∧
    (fetch_last_ota_info sample_services ⟨(7, 7, 7), some "old".toList, none⟩
        { chunks := [], status := 200 }).2
        = ⟨(7, 7, 7), some "old".toList, none⟩ ∧
    (∃ ch rest, [chunk_of sample_line] = ch :: rest ∧
      (fetch_last_ota_info sample_services ⟨(7, 7, 7), some "old".toList, none⟩
        { chunks := [chunk_of sample_line], status := 200 }).2 =
          (parse_ota_info sample_services (zero_info sample_services) ch.data ch.len).2) :=
  ⟨(fetch_last_ota_info_writes_iff_ok sample_services ⟨(7, 7, 7), some "old".toList, none⟩
      { chunks := [chunk_of "x.y|f|abc".toList], status := 200 }).1 (by decide),
   (fetch_last_ota_info_writes_iff_ok sample_services ⟨(7, 7, 7), some "old".toList, none⟩
      { chunks := [chunk_of sample_line], status := 404 }).1 (by decide),
   (fetch_last_ota_info_writes_iff_ok sample_services ⟨(7, 7, 7), some "old".toList, none⟩
      { chunks := [], status := 200 }).1 (by decide),
   (fetch_last_ota_info_writes_iff_ok sample_services ⟨(7, 7, 7), some "old".toList, none⟩
      { chunks := [chunk_of sample_line], status := 200 }).2 (by decide)⟩

/-- C18: the result of `fetch_last_ota_info` is fixed by the status and the
first chunk: a status other than 200 gives `OAP_OTA_ERR_REQUEST_FAILED`
whatever chunks arrived; status 200 without a chunk gives
`OAP_OTA_ERR_EMPTY_RESPONSE`; status 200 with a first chunk `ch` gives the code
of `parse_ota_info` on `ch`, with its record on success, and the chunks after
`ch` play no part. -/
theorem fetch_last_ota_info_by_first_chunk {V Ctx : Type} (X : Services V Ctx)
    (ota_info : ota_info_t V) :
    (∀ resp : response_t, resp.status ≠ 200 →
      fetch_last_ota_info X ota_info resp = (OAP_OTA_ERR_REQUEST_FAILED, ota_info)) ∧
    fetch_last_ota_info X ota_info { chunks := [], status := 200 } =
      (OAP_OTA_ERR_EMPTY_RESPONSE, ota_info) ∧
    (∀ (ch : chunk_t) (rest : List chunk_t),
      (fetch_last_ota_info X ota_info { chunks := ch :: rest, status := 200 }).1 =
          (parse_ota_info X (zero_info X) ch.data ch.len).1 ∧
      ((parse_ota_info X (zero_info X) ch.data ch.len).1 = ESP_OK →
        (fetch_last_ota_info X ota_info { chunks := ch :: rest, status := 200 }).2 =
          (parse_ota_info X (zero_info X) ch.data ch.len).2) ∧
      (∀ other : List chunk_t,
        fetch_last_ota_info X ota_info { chunks := ch :: rest, status := 200 } =
          fetch_last_ota_info X ota_info { chunks := ch :: other, status := 200 })) := by
  refine ⟨fun resp h => fetch_last_ota_info_not_200 X ota_info resp h,
    fetch_last_ota_info_no_chunk X ota_info, ?_⟩
  intro ch rest
  refine ⟨?_, ?_, ?_⟩
  · rw [fetch_last_ota_info_first_chunk]
  · intro h
    rw [fetch_last_ota_info_first_chunk]
    simp only []
    rw [if_pos h]
  · intro other
    rw [fetch_last_ota_info_first_chunk, fetch_last_ota_info_first_chunk]

set_option maxRecDepth 100000 in
/-- Witness for C18: status 404 with a well-formed chunk, and status 200 with a
malformed chunk before a well-formed one. -/
theorem fetch_last_ota_info_by_first_chunk_witness :
    fetch_last_ota_info sample_services ⟨(0, 0, 0), none, none⟩
        { chunks := [chunk_of sample_line], status := 404 } =
      (OAP_OTA_ERR_REQUEST_FAILED, ⟨(0, 0, 0), none, none⟩) ∧
    (fetch_last_ota_info sample_services ⟨(0, 0, 0), none, none⟩
        { chunks := [chunk_of "oops".toList, chunk_of sample_line], status := 200 }).1 =
      (parse_ota_info sample_services (zero_info sample_services)
        (chunk_of "oops".toList).data (chunk_of "oops".toList).len).1 :=
  ⟨(fetch_last_ota_info_by_first_chunk sample_services ⟨(0, 0, 0), none, none⟩).1
      { chunks := [chunk_of sample_line], status := 404 } (by decide),
   ((fetch_last_ota_info_by_first_chunk sample_services ⟨(0, 0, 0), none, none⟩).2.2
      (chunk_of "oops".toList) [chunk_of sample_line]).1⟩

/-! ## The download callback -/

/-- C14: for every chunk handed to `download_ota_binary_callback` the
accumulator is updated with exactly the `len` bytes of the chunk; with a
storage target the chunk is appended by one `esp_ota_write` of those bytes and
the callback returns what `esp_ota_write` returned; with a null target no write
is made and the callback returns 0. -/
theorem download_ota_binary_callback_result {V Ctx : Type} (X : Services V Ctx)
    (esp_ota_write : Nat → Int) (cb : ota_download_callback_meta Ctx)
    (data : Nat → Char) (len : Int) :
    (download_ota_binary_callback X esp_ota_write cb data len).2.sha_context =
      X.mbedtls_sha256_update cb.sha_context (mem_take data len.toNat) ∧
    (mem_take data len.toNat).length = len.toNat ∧
    (cb.update_partition ≠ 0 →
      (download_ota_binary_callback X esp_ota_write cb data len).1
        = esp_ota_write cb.writes.length ∧
      (download_ota_binary_callback X esp_ota_write cb data len).2.writes =
        cb.writes ++ [ota_event.esp_ota_write cb.update_partition (mem_take data len.toNat)]) ∧
    (cb.update_partition = 0 →
      (download_ota_binary_callback X esp_ota_write cb data len).1 = 0 ∧
      (download_ota_binary_callback X esp_ota_write cb data len).2.writes = cb.writes) := by
  refine ⟨?_, mem_take_length data len.toNat, ?_, ?_⟩
  · unfold download_ota_binary_callback
    split <;> rfl
  · intro h
    simp [download_ota_binary_callback, h]
  · intro h
    simp [download_ota_binary_callback, h]

/-- Witness for C14: a chunk `abc` with the handle 5 and a failing write, and
the same chunk with a null target. -/
theorem download_ota_binary_callback_result_witness :
    ((download_ota_binary_callback sample_services (fun _ => 0x105)
        { sha_context := 7, update_partition := 5, writes := [] }
        (cbuf "abc".toList) 3).1 = 0x105 ∧
      (download_ota_binary_callback sample_services (fun _ => 0x105)
        { sha_context := 7, update_partition := 5, writes := [] }
        (cbuf "abc".toList) 3).2.writes =
        [] ++ [ota_event.esp_ota_write 5 (mem_take (cbuf "abc".toList) (3 : Int).toNat)]) ∧
    ((download_ota_binary_callback sample_services (fun _ => 0x105)
        { sha_context := 7, update_partition := 0, writes := [] }
        (cbuf "abc".toList) 3).1 = 0 ∧
      (download_ota_binary_callback sample_services (fun _ => 0x105)
        { sha_context := 7, update_partition := 0, writes := [] }
        (cbuf "abc".toList) 3).2.writes = []) :=
  ⟨(download_ota_binary_callback_result sample_services (fun _ => 0x105)
      { sha_context := 7, update_partition := 5, writes := [] }
      (cbuf "abc".toList) 3).2.2.1 (by decide),
   (download_ota_binary_callback_result sample_services (fun _ => 0x105)
      { sha_context := 7, update_partition := 0, writes := [] }
      (cbuf "abc".toList) 3).2.2.2 rfl⟩

/-! ## The parser on an empty chunk -/

/-- C15: for every buffer and every `len ≤ 0`, `parse_ota_info` returns
`OAP_OTA_ERR_EMPTY_RESPONSE`, a code different from
`OAP_OTA_ERR_MALFORMED_INFO`, with the record unchanged, and the result is the
same for every content of the buffer: no character of the line is read. -/
theorem parse_ota_info_empty {V Ctx : Type} (X : Services V Ctx)
    (ota_info : ota_info_t V) (line : Nat → Char) (len : Int) (h : len ≤ 0) :
    parse_ota_info X ota_info line len = (OAP_OTA_ERR_EMPTY_RESPONSE, ota_info) ∧
    OAP_OTA_ERR_EMPTY_RESPONSE ≠ OAP_OTA_ERR_MALFORMED_INFO ∧
    (∀ other : Nat → Char,
      parse_ota_info X ota_info other len = parse_ota_info X ota_info line len) := by
  have e : ∀ l : Nat → Char,
      parse_ota_info X ota_info l len = (OAP_OTA_ERR_EMPTY_RESPONSE, ota_info) := by
    intro l
    unfold parse_ota_info
    rw [if_pos h]
  exact ⟨e line, by decide, fun other => by rw [e other, e line]⟩

/-- Witness for C15: a well-formed line handed over with `len = 0`. -/
theorem parse_ota_info_empty_witness :
    parse_ota_info sample_services ⟨(7, 7, 7), none, none⟩ (cbuf sample_line) 0 =
      (OAP_OTA_ERR_EMPTY_RESPONSE, ⟨(7, 7, 7), none, none⟩) :=
  (parse_ota_info_empty sample_services ⟨(7, 7, 7), none, none⟩ (cbuf sample_line) 0
    (by decide)).1

/-! ## The order of the storage calls in a cycle -/

theorem download_ota_binary_no_other_event {V Ctx : Type} (X : Services V Ctx)
    (ota_config : ota_config_t) (ota_info : ota_info_t V) (update_partition : Nat)
    (resp : response_t) (esp_ota_write : Nat → Int) (d : esp_err_t × List ota_event)
    (hd : download_ota_binary X ota_config ota_info update_partition resp esp_ota_write
      = some d) :
    (∀ q, ota_event.esp_ota_set_boot_partition q ∉ d.2) ∧
    (∀ h, ota_event.esp_ota_end h ∉ d.2) ∧
    ota_event.oap_reboot ∉ d.2 := by
  have hwr := download_ota_binary_events X ota_config ota_info update_partition resp
    esp_ota_write d hd
  refine ⟨?_, ?_, ?_⟩
  · intro q hq
    obtain ⟨h, w, e⟩ := hwr _ hq
    cases e
  · intro h0 hq
    obtain ⟨h, w, e⟩ := hwr _ hq
    cases e
  · intro hq
    obtain ⟨h, w, e⟩ := hwr _ hq
    cases e

/-- C19: in every cycle the download and `esp_ota_end` (and every
`esp_ota_write`) happen only after `esp_ota_begin` was called and returned
`ESP_OK`; `esp_ota_set_boot_partition` is called only after `esp_ota_end` was
called and returned `ESP_OK` with `commit_and_reboot` set; `oap_reboot` is
triggered only after `esp_ota_set_boot_partition` was called and returned
`ESP_OK`. When `esp_ota_begin`, `esp_ota_end` or `esp_ota_set_boot_partition`
fails there is no restart, and after a failed `esp_ota_begin` or `esp_ota_end`
no call that sets the boot target; the cycle then ends at `go_sleep`, the one
exception being a pass that stopped earlier, in `download_ota_binary` running
past `path[200]`, where `esp_ota_end` and `esp_ota_set_boot_partition` are not
reached at all. A failure of a call that was made always ends the cycle at
`go_sleep`. -/
theorem ota_cycle_order {V Ctx : Type} (X : Services V Ctx) (ota_config : ota_config_t)
    (ota_info : ota_info_t V) (env : cycle_env) :
    ((ota_cycle X ota_config ota_info env).download ≠ none →
      ota_event.esp_ota_begin ota_config.update_partition
        ∈ (ota_cycle X ota_config ota_info env).events ∧ env.esp_ota_begin.1 = ESP_OK) ∧
    (∀ e ∈ (ota_cycle X ota_config ota_info env).events,
      ((∃ h d, e = ota_event.esp_ota_write h d) ∨ (∃ h, e = ota_event.esp_ota_end h)) →
      ota_event.esp_ota_begin ota_config.update_partition
        ∈ (ota_cycle X ota_config ota_info env).events ∧ env.esp_ota_begin.1 = ESP_OK) ∧
    (∀ q, ota_event.esp_ota_set_boot_partition q ∈ (ota_cycle X ota_config ota_info env).events →
      ota_event.esp_ota_end env.esp_ota_begin.2 ∈ (ota_cycle X ota_config ota_info env).events ∧
      env.esp_ota_end = ESP_OK ∧ ota_config.commit_and_reboot ≠ 0) ∧
    (ota_event.oap_reboot ∈ (ota_cycle X ota_config ota_info env).events →
      ota_event.esp_ota_set_boot_partition ota_config.update_partition
        ∈ (ota_cycle X ota_config ota_info env).events ∧
      env.esp_ota_set_boot_partition = ESP_OK) ∧
    ((env.esp_ota_begin.1 ≠ ESP_OK ∨ env.esp_ota_end ≠ ESP_OK ∨
        env.esp_ota_set_boot_partition ≠ ESP_OK) →
      ((ota_cycle X ota_config ota_info env).exit = cycle_exit.go_sleep ∨
        (ota_cycle X ota_config ota_info env).exit = cycle_exit.path_overflow) ∧
      ota_event.oap_reboot ∉ (ota_cycle X ota_config ota_info env).events) ∧
    ((env.esp_ota_begin.1 ≠ ESP_OK ∨ env.esp_ota_end ≠ ESP_OK) →
      ∀ q, ota_event.esp_ota_set_boot_partition q
        ∉ (ota_cycle X ota_config ota_info env).events) ∧
    ((ota_cycle X ota_config ota_info env).exit = cycle_exit.path_overflow →
      ota_event.esp_ota_begin ota_config.update_partition
        ∈ (ota_cycle X ota_config ota_info env).events ∧ env.esp_ota_begin.1 = ESP_OK ∧
      200 < path_bytes ota_config
        (is_ota_update_available X ota_config ota_info env.index_response).2 ∧
      (∀ h, ota_event.esp_ota_end h ∉ (ota_cycle X ota_config ota_info env).events) ∧
      (∀ q, ota_event.esp_ota_set_boot_partition q
        ∉ (ota_cycle X ota_config ota_info env).events) ∧
      ota_event.oap_reboot ∉ (ota_cycle X ota_config ota_info env).events) ∧
    ((env.esp_ota_begin.1 ≠ ESP_OK ∨
        (ota_event.esp_ota_end env.esp_ota_begin.2
            ∈ (ota_cycle X ota_config ota_info env).events ∧ env.esp_ota_end ≠ ESP_OK) ∨
        (ota_event.esp_ota_set_boot_partition ota_config.update_partition
            ∈ (ota_cycle X ota_config ota_info env).events ∧
          env.esp_ota_set_boot_partition ≠ ESP_OK)) →
      (ota_cycle X ota_config ota_info env).exit = cycle_exit.go_sleep ∧
      ota_event.oap_reboot ∉ (ota_cycle X ota_config ota_info env).events) := by
  by_cases hw : env.wifi_connected_wait_for = ESP_OK
  swap
  · simp [ota_cycle, hw]
  by_cases ha : (is_ota_update_available X ota_config ota_info env.index_response).1 = ESP_OK
  swap
  · simp [ota_cycle, hw, ha]
  by_cases hb : env.esp_ota_begin.1 = ESP_OK
  swap
  · simp [ota_cycle, hw, ha, hb]
  cases hdl : download_ota_binary X ota_config
      (is_ota_update_available X ota_config ota_info env.index_response).2
      env.esp_ota_begin.2 env.binary_response env.esp_ota_write with
  | none =>
    have hover : 200 < path_bytes ota_config
        (is_ota_update_available X ota_config ota_info env.index_response).2 := by
      by_contra hfit
      rw [download_ota_binary_eq X ota_config _ _ _ _ (by omega)] at hdl
      cases hdl
    simp [ota_cycle, hw, ha, hb, hdl, hover]
  | some d =>
    obtain ⟨hnb, hne, hnr⟩ := download_ota_binary_no_other_event X ota_config
      (is_ota_update_available X ota_config ota_info env.index_response).2
      env.esp_ota_begin.2 env.binary_response env.esp_ota_write d hdl
    by_cases he : env.esp_ota_end = ESP_OK
    swap
    · simp [ota_cycle, hw, ha, hb, hdl, he, hnb, hnr]
    by_cases hc : ota_config.commit_and_reboot = 0
    · simp [ota_cycle, hw, ha, hb, hdl, he, hc, hnb, hnr]
    by_cases hs : env.esp_ota_set_boot_partition = ESP_OK
    · simp [ota_cycle, hw, ha, hb, hdl, he, hc, hs, hnb, hnr]
    · simp [ota_cycle, hw, ha, hb, hdl, he, hc, hs, hnb, hnr]

set_option maxRecDepth 100000 in
/-- Witness for C19: a cycle in which `esp_ota_begin` fails, and scenario A of
the spec, in which the restart follows a successful
`esp_ota_set_boot_partition`. -/
theorem ota_cycle_order_witness :
    ((ota_cycle sample_services sample_config ⟨(0, 0, 0), none, none⟩
        { sample_env "0123456789".toList with esp_ota_begin := (ESP_FAIL, 0) }).exit
        = cycle_exit.go_sleep ∧
      ota_event.oap_reboot ∉ (ota_cycle sample_services sample_config ⟨(0, 0, 0), none, none⟩
        { sample_env "0123456789".toList with esp_ota_begin := (ESP_FAIL, 0) }).events) ∧
    (ota_event.esp_ota_set_boot_partition sample_config.update_partition
        ∈ (ota_cycle sample_services sample_config ⟨(0, 0, 0), none, none⟩
            (sample_env "0123456789".toList)).events ∧
      (sample_env "0123456789".toList).esp_ota_set_boot_partition = ESP_OK) :=
  ⟨(ota_cycle_order sample_services sample_config ⟨(0, 0, 0), none, none⟩
      { sample_env "0123456789".toList with esp_ota_begin := (ESP_FAIL, 0) }).2.2.2.2.2.2.2
      (Or.inl (by decide)),
   (ota_cycle_order sample_services sample_config ⟨(0, 0, 0), none, none⟩
      (sample_env "0123456789".toList)).2.2.2.1 (by decide)⟩

/-! ## What the scan reads, and how the loop goes on -/

theorem mem_take_succ (m : Nat → Char) (n : Nat) :
    mem_take m (n + 1) = mem_take m n ++ [m n] := by
  simp [mem_take, List.range_succ]

theorem mem_take_congr (m m2 : Nat → Char) (n : Nat) (h : ∀ j, j < n → m j = m2 j) :
    mem_take m n = mem_take m2 n := by
  unfold mem_take
  apply List.map_congr_left
  intro j hj
  exact h j (List.mem_range.mp hj)

theorem str_make_congr (line line2 : Nat → Char) (start i : Nat)
    (h : ∀ j, j < i → line j = line2 j) :
    str_make (fun k => line (start + k)) ((i : Int) - (start : Nat)) =
      str_make (fun k => line2 (start + k)) ((i : Int) - (start : Nat)) := by
  unfold str_make
  split
  · rfl
  · congr 1
    apply mem_take_congr
    intro k hk
    exact h (start + k) (by omega)

theorem scan_loop_congr (line line2 : Nat → Char) (len : Nat)
    (h : ∀ j, j ≤ len → line j = line2 j) :
    ∀ (fuel i : Nat) (s : scan_t), i ≤ len →
      scan_loop line len fuel i s = scan_loop line2 len fuel i s := by
  intro fuel
  induction fuel with
  | zero => intro i s _; rfl
  | succ fuel ih =>
    intro i s hi
    have hl : line2 i = line i := (h i hi).symm
    have hs : str_make (fun k => line2 (s.start + k)) ((i : Int) - (s.start : Nat)) =
        str_make (fun k => line (s.start + k)) ((i : Int) - (s.start : Nat)) :=
      (str_make_congr line line2 s.start i (fun j hj => h j (by omega))).symm
    have hrec : ∀ s1 : scan_t,
        (if line i ≠ NUL ∧ i < len then scan_loop line2 len fuel (i + 1) s1 else s1) =
          (if line i ≠ NUL ∧ i < len then scan_loop line len fuel (i + 1) s1 else s1) := by
      intro s1
      by_cases c : line i ≠ NUL ∧ i < len
      · rw [if_pos c, if_pos c]
        exact (ih (i + 1) s1 (by omega)).symm
      · rw [if_neg c, if_neg c]
    conv_lhs => rw [scan_loop]
    conv_rhs => rw [scan_loop]
    rw [hl, hs]
    simp only [hrec]

/-- The result of `parse_ota_info` depends on the characters at the indices
`0 .. len` only: the one at index `len` is among those examined, none after it
is. -/
theorem parse_ota_info_congr {V Ctx : Type} (X : Services V Ctx) (ota_info : ota_info_t V)
    (line line2 : Nat → Char) (len : Int) (h : ∀ j : Nat, (j : Int) ≤ len → line j = line2 j) :
    parse_ota_info X ota_info line len = parse_ota_info X ota_info line2 len := by
  unfold parse_ota_info
  by_cases hlen : len ≤ 0
  · rw [if_pos hlen, if_pos hlen]
  · rw [if_neg hlen, if_neg hlen,
      scan_loop_congr line line2 len.toNat (fun j hj => h j (by omega)) _ 0 _ (Nat.zero_le _)]

/-- In run-once mode the loop makes one pass, without any `delay`, and returns
`err` as the pass left it. -/
theorem ota_loop_run_once {V Ctx : Type} (X : Services V Ctx) (ota_config : ota_config_t)
    (ota_info : ota_info_t V) (env : cycle_env) (envs : List cycle_env)
    (h : ota_config.interval ≤ 0)
    (hx : (ota_cycle X ota_config ota_info env).exit = cycle_exit.go_sleep) :
    ota_loop X ota_config (env :: envs) ota_info =
      ((ota_cycle X ota_config ota_info env).events,
        some (ota_cycle X ota_config ota_info env).err) := by
  rw [ota_loop]
  simp only [hx]
  rw [if_pos h]

/-- With `interval > 0` a pass that ends at `go_sleep` is followed by a `delay`
of `interval` and the next pass. -/
theorem ota_loop_retry {V Ctx : Type} (X : Services V Ctx) (ota_config : ota_config_t)
    (ota_info : ota_info_t V) (env : cycle_env) (envs : List cycle_env)
    (h : 0 < ota_config.interval)
    (hx : (ota_cycle X ota_config ota_info env).exit = cycle_exit.go_sleep) :
    ota_loop X ota_config (env :: envs) ota_info =
      ((ota_cycle X ota_config ota_info env).events ++ ota_event.delay ota_config.interval ::
          (ota_loop X ota_config envs (ota_cycle X ota_config ota_info env).ota_info).1,
        (ota_loop X ota_config envs (ota_cycle X ota_config ota_info env).ota_info).2) := by
  rw [ota_loop]
  simp only [hx]
  rw [if_neg (by omega)]

/-- With `interval > 0` the loop returns, if at all, `ESP_OK` from the pass that
restarted the device. -/
theorem ota_loop_returns_ok {V Ctx : Type} (X : Services V Ctx) (ota_config : ota_config_t)
    (h : 0 < ota_config.interval) (envs : List cycle_env) :
    ∀ (ota_info : ota_info_t V) (r : esp_err_t),
      (ota_loop X ota_config envs ota_info).2 = some r → r = ESP_OK := by
  induction envs with
  | nil => intro ota_info r hr; simp [ota_loop] at hr
  | cons env envs ih =>
    intro ota_info r hr
    cases hx : (ota_cycle X ota_config ota_info env).exit with
    | returned =>
      rw [ota_loop] at hr
      simp only [hx] at hr
      exact (Option.some.inj hr).symm
    | path_overflow =>
      rw [ota_loop] at hr
      simp only [hx] at hr
      cases hr
    | go_sleep =>
      rw [ota_loop_retry X ota_config ota_info env envs h hx] at hr
      exact ih _ r hr

/-! ## Defects seen at concrete inputs -/

set_option maxRecDepth 100000 in
/-- C12 does not hold of the code: the buffers `sample_line` followed by NUL and
`sample_line` followed by `X` agree on their first 78 characters, the
well-formed line; with `len = 78` the first is accepted and the second is
rejected with `OAP_OTA_ERR_MALFORMED_INFO`, so the character at index `len` is
examined and decides the result. -/
theorem parse_ota_info_examines_line_at_len :
    mem_take (cbuf (sample_line ++ ['X'])) 78 = sample_line ∧
    mem_take (cbuf sample_line) 78 = sample_line ∧
    parse_ota_info sample_services ⟨(0, 0, 0), none, none⟩ (cbuf sample_line) 78 =
      (ESP_OK, ⟨(2, 0, 0), some "app.bin".toList,
        some "c68d541be2a97037fec58c531ae1a86f36fdc48b5219e0a76e35fcc38a5118df".toList⟩) ∧
    parse_ota_info sample_services ⟨(0, 0, 0), none, none⟩ (cbuf (sample_line ++ ['X'])) 78 =
      (OAP_OTA_ERR_MALFORMED_INFO, ⟨(0, 0, 0), none, none⟩) := by
  decide

set_option maxRecDepth 100000 in
/-- C13 does not hold of the code: with `interval > 0` and a first cycle whose
download ends with `OAP_OTA_ERR_SHA_MISMATCH`, the task does not sleep and
start the next cycle; it sets the boot partition, restarts and returns
`ESP_OK` without any `delay`. -/
theorem check_ota_task_no_sleep_after_sha_mismatch :
    (ota_cycle sample_services { sample_config with interval := 3600000 }
        ⟨(0, 0, 0), none, none⟩ (sample_env "0123456780".toList)).download
      = some OAP_OTA_ERR_SHA_MISMATCH ∧
    check_ota_task sample_services { sample_config with interval := 3600000 } none
        ⟨(0, 0, 0), none, none⟩
        [sample_env "0123456780".toList, sample_env "0123456789".toList] =
      ({ sample_config with interval := 3600000 },
        [ota_event.esp_ota_get_running_partition,
         ota_event.wifi_connected_wait_for 30000,
         ota_event.req_perform "/fw/index.txt".toList,
         ota_event.esp_ota_begin (some 2),
         ota_event.req_perform "/fw/app.bin".toList,
         ota_event.esp_ota_write 5 "0123456780".toList,
         ota_event.esp_ota_end 5,
         ota_event.esp_ota_set_boot_partition (some 2),
         ota_event.oap_reboot],
        some ESP_OK) := by
  decide

set_option maxRecDepth 100000 in
/-- C16 does not hold of the code: in run-once mode without auto-commit, a cycle
whose download ends with `OAP_OTA_ERR_SHA_MISMATCH` makes the task return
`ESP_OK`, the value `esp_ota_end` left in `err`. -/
theorem check_ota_task_run_once_ok_after_sha_mismatch :
    (ota_cycle sample_services { sample_config with commit_and_reboot := 0 }
        ⟨(0, 0, 0), none, none⟩ (sample_env "0123456780".toList)).download
      = some OAP_OTA_ERR_SHA_MISMATCH ∧
    check_ota_task sample_services { sample_config with commit_and_reboot := 0 } none
        ⟨(0, 0, 0), none, none⟩ [sample_env "0123456780".toList] =
      ({ sample_config with commit_and_reboot := 0 },
        [ota_event.esp_ota_get_running_partition,
         ota_event.wifi_connected_wait_for 30000,
         ota_event.req_perform "/fw/index.txt".toList,
         ota_event.esp_ota_begin (some 2),
         ota_event.req_perform "/fw/app.bin".toList,
         ota_event.esp_ota_write 5 "0123456780".toList,
         ota_event.esp_ota_end 5],
        some ESP_OK) := by
  decide

set_option maxRecDepth 100000 in
/-- A manifest whose file name has 200 characters is accepted by the parser and
the gate; `download_ota_binary` then runs past `path[200]`: the pass stops after
`esp_ota_begin`, before the image request, and the task does not return. -/
theorem ota_cycle_stops_in_path_overflow :
    (ota_cycle sample_services sample_config ⟨(0, 0, 0), none, none⟩
        { sample_env "0123456789".toList with
          index_response :=
            { chunks := [chunk_of ("2.0.0|".toList ++ List.replicate 200 'a' ++ "|abc".toList)],
              status := 200 } }).exit = cycle_exit.path_overflow ∧
    check_ota_task sample_services sample_config none ⟨(0, 0, 0), none, none⟩
        [{ sample_env "0123456789".toList with
          index_response :=
            { chunks := [chunk_of ("2.0.0|".toList ++ List.replicate 200 'a' ++ "|abc".toList)],
              status := 200 } }] =
      (sample_config,
        [ota_event.esp_ota_get_running_partition,
         ota_event.wifi_connected_wait_for 30000,
         ota_event.req_perform "/fw/index.txt".toList,
         ota_event.esp_ota_begin (some 2)],
        none) := by
  decide

/-! ## `sha_to_hex` is the hexadecimal encoding, and can be decoded -/

theorem hex_value_hex_digit (n : Nat) (h : n < 16) : hex_value (hex_digit n) = n := by
  revert n; decide

theorem hex_decode_flatMap (bs : List Nat) (hb : ∀ b ∈ bs, b < 256) :
    hex_decode (bs.flatMap (fun b => [hex_digit (b / 16), hex_digit (b % 16)])) = bs := by
  induction bs with
  | nil => rfl
  | cons b bs ih =>
    have hlt : b < 256 := hb b (by simp)
    have e : (b :: bs).flatMap (fun b => [hex_digit (b / 16), hex_digit (b % 16)]) =
        hex_digit (b / 16) :: hex_digit (b % 16) ::
          bs.flatMap (fun b => [hex_digit (b / 16), hex_digit (b % 16)]) := by
      simp [List.flatMap_cons]
    rw [e, hex_decode, ih (fun c hc => hb c (by simp [hc])), hex_value_hex_digit _ (by omega),
      hex_value_hex_digit _ (by omega)]
    congr 1
    omega

theorem hash_bytes_eq (hash : List Nat) (hlen : hash.length = 32) (hb : ∀ b ∈ hash, b < 256) :
    (List.range 32).map (hash_byte hash) = hash := by
  apply List.ext_getElem
  · simp [hlen]
  · intro i h1 h2
    have hlt : hash[i] < 256 := hb _ (List.getElem_mem h2)
    simp only [List.getElem_map, List.getElem_range, hash_byte]
    rw [List.getD_eq_getElem _ _ h2]
    omega

theorem hex_encode_eq_flatMap (hash : List Nat) (hlen : hash.length = 32)
    (hb : ∀ b ∈ hash, b < 256) :
    hex_encode hash = hash.flatMap (fun b => [hex_digit (b / 16), hex_digit (b % 16)]) := by
  have h := List.flatMap_map (hash_byte hash)
    (fun b => [hex_digit (b / 16), hex_digit (b % 16)]) (List.range 32)
  rw [hash_bytes_eq hash hlen hb] at h
  rw [h]
  rfl

theorem flatMap_digits_getElem (bs : List Nat) (t : List Char) :
    ∀ i, i < bs.length →
      (bs.flatMap (fun b => [hex_digit (b / 16), hex_digit (b % 16)]) ++ t)[2 * i]?
        = some (hex_digit (bs.getD i 0 / 16)) ∧
      (bs.flatMap (fun b => [hex_digit (b / 16), hex_digit (b % 16)]) ++ t)[2 * i + 1]?
        = some (hex_digit (bs.getD i 0 % 16)) := by
  induction bs with
  | nil => intro i h; simp at h
  | cons b bs ih =>
    intro i h
    cases i with
    | zero => simp
    | succ i =>
      have := ih i (by simpa using h)
      have e1 : 2 * (i + 1) = 2 * i + 1 + 1 := by omega
      rw [e1]
      simpa using this

/-- C17: for every hash of 32 bytes, `sha_to_hex` returns a NUL-terminated string
of exactly 64 characters, all of them in `0-9a-f`, whose characters `2i` and
`2i+1` are the high and the low nibble of `hash[i]`; decoding the string gives
the hash back, so two hashes with the same string are equal. -/
theorem sha_to_hex_encoding (hash : List Nat) (hlen : hash.length = 32)
    (hb : ∀ b ∈ hash, b < 256) :
    sha_to_hex hash = cstr (sha_to_hex hash) ++ [NUL] ∧
    (cstr (sha_to_hex hash)).length = 64 ∧
    (∀ c ∈ cstr (sha_to_hex hash), is_lower_hex c = true) ∧
    (∀ i, i < 32 →
      (sha_to_hex hash)[2 * i]? = some (hex_digit (hash.getD i 0 / 16)) ∧
      (sha_to_hex hash)[2 * i + 1]? = some (hex_digit (hash.getD i 0 % 16))) ∧
    hex_decode (cstr (sha_to_hex hash)) = hash ∧
    (∀ other : List Nat, other.length = 32 → (∀ b ∈ other, b < 256) →
      sha_to_hex other = sha_to_hex hash → other = hash) := by
  have hbuf : ∀ h : List Nat, sha_to_hex h = hex_encode h ++ [NUL] := by
    intro h
    unfold sha_to_hex
    exact sha_to_hex_in_eq _ h (by simp)
  have hdec : ∀ h : List Nat, h.length = 32 → (∀ b ∈ h, b < 256) →
      hex_decode (cstr (sha_to_hex h)) = h := by
    intro h h1 h2
    rw [cstr_sha_to_hex, hex_encode_eq_flatMap h h1 h2, hex_decode_flatMap h h2]
  refine ⟨?_, ?_, ?_, ?_, hdec hash hlen hb, ?_⟩
  · rw [cstr_sha_to_hex, hbuf]
  · rw [cstr_sha_to_hex]
    exact hex_encode_upto_length hash 32
  · rw [cstr_sha_to_hex]
    exact hex_encode_upto_lower_hex hash 32
  · intro i hi
    rw [hbuf, hex_encode_eq_flatMap hash hlen hb]
    exact flatMap_digits_getElem hash [NUL] i (by omega)
  · intro other h1 h2 e
    rw [← hdec other h1 h2, e, hdec hash hlen hb]

/-- Witness for C17: the hash `0x00, 0x01, .., 0x1f`. -/
theorem sha_to_hex_encoding_witness :
    cstr (sha_to_hex (List.range 32)) =
        "000102030405060708090a0b0c0d0e0f101112131415161718191a1b1c1d1e1f".toList ∧
      hex_decode (cstr (sha_to_hex (List.range 32))) = List.range 32 :=
  ⟨by decide,
   (sha_to_hex_encoding (List.range 32) (by decide) (by decide)).2.2.2.2.1⟩

/-! ## `sha_to_hexstr` writes 65 bytes -/

theorem sha_to_hexstr_fold (hash : List Nat) (hex : Nat → Char) :
    ∀ k, mem_take ((List.range k).foldl
        (fun m i => snprintf_02x_mem m (i * 2) (hash_byte hash i)) (hex, [])).1 (2 * k)
      = hex_encode_upto hash k := by
  intro k
  induction k with
  | zero => simp [mem_take, hex_encode_upto]
  | succ k ih =>
    rw [List.range_succ, List.foldl_append, hex_encode_upto_succ, ← ih]
    simp only [List.foldl_cons, List.foldl_nil]
    have e : 2 * (k + 1) = 2 * k + 1 + 1 := by omega
    rw [e, mem_take_succ, mem_take_succ, List.append_assoc]
    congr 1
    · apply mem_take_congr
      intro j hj
      simp only [snprintf_02x_mem, mem_set]
      rw [if_neg (by omega), if_neg (by omega), if_neg (by omega)]
    · simp only [snprintf_02x_mem, mem_set, List.cons_append, List.nil_append]
      have h1 : ¬ (2 * k = k * 2 + 2) := by omega
      have h2 : ¬ (2 * k = k * 2 + 1) := by omega
      have h3 : 2 * k = k * 2 := by omega
      have h4 : ¬ (2 * k + 1 = k * 2 + 2) := by omega
      have h5 : 2 * k + 1 = k * 2 + 1 := by omega
      simp [h1, h2, h3, h4, h5]

/-- C20 does not hold of the code: for every hash and every content of the
memory behind `hex`, `sha_to_hexstr` writes the byte at index 64, one past the
64-byte buffer, and leaves a NUL there; the 64 bytes of the buffer do hold the
characters `sha_to_hex` produces. -/
theorem sha_to_hexstr_writes_past_buffer (hash : List Nat) (hex : Nat → Char) :
    64 ∈ (sha_to_hexstr hash hex).2 ∧
    (sha_to_hexstr hash hex).1 64 = NUL ∧
    mem_take (sha_to_hexstr hash hex).1 64 = cstr (sha_to_hex hash) := by
  refine ⟨?_, ?_, ?_⟩
  · unfold sha_to_hexstr
    rw [show (32 : Nat) = 31 + 1 from rfl, List.range_succ, List.foldl_append]
    simp [snprintf_02x_mem]
  · unfold sha_to_hexstr
    rw [show (32 : Nat) = 31 + 1 from rfl, List.range_succ, List.foldl_append]
    simp [snprintf_02x_mem, mem_set]
  · rw [cstr_sha_to_hex]
    exact sha_to_hexstr_fold hash hex 32

end Ota
